import Mathlib

/-!
Shallow embedding of the workflow core of the `hooshpro-core-cms` backend
(`app/services/flows_service.py`, `app/schemas/flow.py`, `app/routers/flows.py`):
the JSON-ish value model, the template resolver, the action handlers, the
breadth-first execution engine, run orchestration, and the definition
validator — together with theorems settling the specification claims.

Python dynamic values are modelled by `Val`; dicts are association lists
(first occurrence wins on lookup, insertion order preserved on update, as in
Python). Machine-level randomness and clocks (`uuid4`, `datetime.now`) are
modelled by an explicit environment `RefEnv`. The SQLAlchemy session is
modelled by a `Session` carrying a committed and a staged database state.
-/

set_option autoImplicit false
set_option maxRecDepth 20000

namespace Flows

/-- Python/JSON dynamic value (the `Any` flowing through configs, inputs,
contexts and outputs). -/
inductive Val where
  | null
  | bool (b : Bool)
  | int (n : Int)
  | str (s : String)
  | list (xs : List Val)
  | dict (kvs : List (String × Val))
deriving Repr, BEq

/-- Python truthiness for the values of `Val`. -/
def Val.truthy : Val → Bool
  | .null => false
  | .bool b => b
  | .int n => n != 0
  | .str s => s != ""
  | .list xs => !xs.isEmpty
  | .dict kvs => !kvs.isEmpty

/-- Is the value a Python dict? (`isinstance(v, dict)`). -/
def Val.isDict : Val → Bool
  | .dict _ => true
  | _ => false

/-- First-occurrence lookup in an association list (Python dict `get`;
stored dicts have unique keys, so first occurrence is the occurrence). -/
def dictGet (kvs : List (String × Val)) (k : String) : Option Val :=
  match kvs.find? (fun p => p.1 == k) with
  | some p => some p.2
  | none => none

/-- Python dict assignment `d[k] = v`: overwrite in place if the key exists,
else append (insertion order preserved). -/
def dictSet (kvs : List (String × Val)) (k : String) (v : Val) : List (String × Val) :=
  match kvs with
  | [] => [(k, v)]
  | (k0, v0) :: rest =>
    if k0 == k then (k0, v) :: rest else (k0, v0) :: dictSet rest k v

mutual

/-- Python `repr` of a `Val` (string leaves quoted). -/
def Val.pyRepr : Val → String
  | .null => "None"
  | .bool b => if b then "True" else "False"
  | .int n => n.repr
  | .str s => "\x27" ++ s ++ "\x27"
  | .list xs => "[" ++ String.intercalate ", " (Val.pyReprList xs) ++ "]"
  | .dict kvs => "\x7b" ++ String.intercalate ", " (Val.pyReprDict kvs) ++ "\x7d"

/-- `repr` of each element of a list. -/
def Val.pyReprList : List Val → List String
  | [] => []
  | v :: rest => Val.pyRepr v :: Val.pyReprList rest

/-- `repr` of each `key: value` pair of a dict. -/
def Val.pyReprDict : List (String × Val) → List String
  | [] => []
  | (k, v) :: rest => ("\x27" ++ k ++ "\x27: " ++ Val.pyRepr v) :: Val.pyReprDict rest

end

/-- Python `str()` of a `Val`: a string leaf is returned as-is, anything
else falls through to `repr`-style printing. -/
def Val.pyStr : Val → String
  | .str s => s
  | v => v.pyRepr

/-- `v or default` for a Python value: the value itself when truthy, else
the default. -/
def pyOr (v : Val) (dflt : Val) : Val :=
  if v.truthy then v else dflt

/-- `str(config.get(key, dflt) or dflt)` — the ubiquitous config-field
access pattern of the action handlers. -/
def cfgStr (kvs : List (String × Val)) (k : String) (dflt : String) : String :=
  Val.pyStr (pyOr ((dictGet kvs k).getD (.str dflt)) (.str dflt))

/-- Python `str.strip()` (ASCII-whitespace fragment). -/
def pyStrip (s : String) : String :=
  String.mk ((s.data.dropWhile Char.isWhitespace).reverse.dropWhile Char.isWhitespace).reverse

/-- Python `str.lower()` (ASCII fragment). -/
def pyLower (s : String) : String :=
  String.mk (s.data.map Char.toLower)

/-- Python `s.startswith(pre)`. -/
def pyStartsWith (pre s : String) : Bool :=
  pre.data.isPrefixOf s.data

/-- Python `s.split(sep)` for a one-character separator (empty string gives
`[""]`, adjacent separators give empty parts). -/
def splitOnChar (sep : Char) : List Char → List (List Char)
  | [] => [[]]
  | c :: rest =>
    if c = sep then [] :: splitOnChar sep rest
    else
      match splitOnChar sep rest with
      | h :: t => (c :: h) :: t
      | [] => [[c]]

/-- `path.split(".")`. -/
def pySplitDot (s : String) : List String :=
  (splitOnChar '.' s.data).map String.mk

/-- Digit-list accumulator for `int(...)`. -/
def digitsToNatAux : List Char → Nat → Option Nat
  | [], acc => some acc
  | c :: rest, acc =>
    if c.isDigit then digitsToNatAux rest (acc * 10 + (c.toNat - 48)) else none

/-- A non-empty all-digit character list as a number. -/
def digitsToNat : List Char → Option Nat
  | [] => none
  | ds => digitsToNatAux ds 0

/-- Python `int(s)` on a string: strip, optional sign, decimal digits. -/
def pyToInt? (s : String) : Option Int :=
  match (pyStrip s).data with
  | '+' :: ds => (digitsToNat ds).map Int.ofNat
  | '-' :: ds => (digitsToNat ds).map (fun n => -(Int.ofNat n))
  | ds => (digitsToNat ds).map Int.ofNat

/-- Ambient nondeterminism of the service: the wall clock and the random
source consumed by `now_iso` / `timestamp` / `uuid` / `random6` and by the
random slug fallback. -/
structure RefEnv where
  nowIso : String
  timestamp : Int
  uuid : String
  random6 : String

/-! ### Template scanner

`_TEMPLATE_RE = \x7b\x7b\s*([a-zA-Z0-9_.-]+)\s*\x7d\x7d`. The pattern has no
genuine backtracking (the character class, the whitespace class and the brace
are pairwise disjoint), so a maximal-munch scanner computes exactly the
matches of `re.finditer`. -/

/-- A character of the regex class `[a-zA-Z0-9_.-]`. -/
def exprChar (c : Char) : Bool :=
  c.isAlphanum || c == '_' || c == '.' || c == '-'

/-- A regex `\s` character (ASCII fragment). -/
def spaceChar (c : Char) : Bool :=
  c == ' ' || c == '\t' || c == '\n' || c == '\x0d' || c == '\x0b' || c == '\x0c'

/-- Try to match the template pattern at the head of the character list;
on success return the captured group and the number of characters consumed. -/
def matchTemplateAt (l : List Char) : Option (String × Nat) :=
  if l.take 2 = ['\x7b', '\x7b'] then
    if ((l.drop 2).dropWhile spaceChar).takeWhile exprChar = [] then none
    else
      if ((((l.drop 2).dropWhile spaceChar).dropWhile exprChar).dropWhile spaceChar).take 2
          = ['\x7d', '\x7d'] then
        some (String.mk (((l.drop 2).dropWhile spaceChar).takeWhile exprChar),
          2 + ((l.drop 2).takeWhile spaceChar).length
            + (((l.drop 2).dropWhile spaceChar).takeWhile exprChar).length
            + ((((l.drop 2).dropWhile spaceChar).dropWhile exprChar).takeWhile spaceChar).length
            + 2)
      else none
  else none

theorem takeWhile_dropWhile_length {p : Char → Bool} (l : List Char) :
    (l.takeWhile p).length + (l.dropWhile p).length = l.length := by
  rw [← List.length_append, List.takeWhile_append_dropWhile]

theorem matchTemplateAt_consumes {l : List Char} {g : String} {n : Nat}
    (h : matchTemplateAt l = some (g, n)) : 1 ≤ n ∧ n ≤ l.length := by
  unfold matchTemplateAt at h
  split_ifs at h with h1 h2 h3
  · simp only [Option.some.injEq, Prod.mk.injEq] at h
    obtain ⟨-, hn⟩ := h
    subst hn
    have hl2 : 2 ≤ l.length := by
      have := congrArg List.length h1
      simp only [List.length_take, List.length_cons, List.length_nil] at this
      omega
    have e0 : (l.drop 2).length = l.length - 2 := by simp
    have e1 := takeWhile_dropWhile_length (p := spaceChar) (l.drop 2)
    have e2 := takeWhile_dropWhile_length (p := exprChar) ((l.drop 2).dropWhile spaceChar)
    have e3 := takeWhile_dropWhile_length (p := spaceChar)
      (((l.drop 2).dropWhile spaceChar).dropWhile exprChar)
    have e4 : 2 ≤ ((((l.drop 2).dropWhile spaceChar).dropWhile exprChar).dropWhile spaceChar).length := by
      have := congrArg List.length h3
      simp only [List.length_take, List.length_cons, List.length_nil] at this
      omega
    omega

/-- Worker for the scanner; the fuel only serves structural recursion and
is always at least the number of remaining characters (each step consumes
at least one character). -/
def scanTemplatesAux (fuel : Nat) (l : List Char) (pos : Nat) : List (Nat × Nat × String) :=
  match fuel with
  | 0 => []
  | fuel + 1 =>
    match l with
    | [] => []
    | c :: rest =>
      match matchTemplateAt (c :: rest) with
      | some (g, n) => (pos, pos + n, g) :: scanTemplatesAux fuel (List.drop n (c :: rest)) (pos + n)
      | none => scanTemplatesAux fuel rest (pos + 1)

/-- All matches of the template pattern, as `(start, end, group)` in
code-point positions — the result of `re.finditer`. -/
def scanTemplates (l : List Char) (pos : Nat) : List (Nat × Nat × String) :=
  scanTemplatesAux l.length l pos

/-- The fuel of `scanTemplatesAux` is irrelevant as long as it covers the
remaining characters, so `scanTemplates` is the fixpoint of the scanning
step relation. -/
theorem scanTemplatesAux_fuel {fuel fuel2 : Nat} (l : List Char) (pos : Nat)
    (h : l.length ≤ fuel) (h2 : l.length ≤ fuel2) :
    scanTemplatesAux fuel l pos = scanTemplatesAux fuel2 l pos := by
  induction fuel using Nat.strong_induction_on generalizing fuel2 l pos with
  | _ fuel ih =>
    match fuel, fuel2, l with
    | 0, fuel2, [] => cases fuel2 <;> rfl
    | 0, _, c :: rest => simp at h
    | fuel + 1, 0, [] => rfl
    | fuel + 1, 0, c :: rest => simp at h2
    | fuel + 1, fuel2 + 1, [] => rfl
    | fuel + 1, fuel2 + 1, c :: rest =>
      simp only [List.length_cons] at h h2
      simp only [scanTemplatesAux]
      cases hm : matchTemplateAt (c :: rest) with
      | some gn =>
        obtain ⟨g, n⟩ := gn
        have hc := matchTemplateAt_consumes hm
        dsimp only
        congr 1
        exact ih fuel (by omega) _ _
          (by simp only [List.length_drop, List.length_cons]; omega)
          (by simp only [List.length_drop, List.length_cons]; omega)
      | none =>
        dsimp only
        exact ih fuel (by omega) _ _ (by omega) (by omega)

/-- `get_path` (inner helper of `_resolve_ref`): walk nested dicts along the
split path; any missing segment or non-dict intermediate yields `""`. -/
def getPathParts : Val → List String → Val
  | current, [] => current
  | current, p :: rest =>
    match current with
    | .dict kvs =>
      match dictGet kvs p with
      | some v => getPathParts v rest
      | none => .str ""
    | _ => .str ""

/-- `get_path(root, path)` with Python `path.split(".")` splitting. -/
def getPath (root : Val) (path : String) : Val :=
  getPathParts root (pySplitDot path)

/-- `_resolve_ref`: builtins, whole-scope roots, then dotted paths;
anything else resolves to `""`. -/
def resolveRef (env : RefEnv) (inp ctx out : List (String × Val)) (expr : String) : Val :=
  let e := pyStrip expr
  if e = "" then .str ""
  else if e = "now_iso" then .str env.nowIso
  else if e = "timestamp" then .int env.timestamp
  else if e = "uuid" then .str env.uuid
  else if e = "random6" then .str env.random6
  else if e = "input" then .dict inp
  else if e = "context" then .dict ctx
  else if e = "output" then .dict out
  else if pyStartsWith "input." e then getPath (.dict inp) (e.drop 6)
  else if pyStartsWith "context." e then getPath (.dict ctx) (e.drop 8)
  else if pyStartsWith "output." e then getPath (.dict out) (e.drop 7)
  else .str ""

/-- The `repl` closure of `_render_template_value`: `""` if the resolved
value is `None`, else its `str()`. -/
def renderRepl (env : RefEnv) (inp ctx out : List (String × Val)) (g : String) : String :=
  match resolveRef env inp ctx out g with
  | .null => ""
  | v => v.pyStr

/-- `_TEMPLATE_RE.sub(repl, value)`: splice the replacement of each match
between the untouched stretches of the original string. -/
def spliceTemplates (chars : List Char) (repl : String → String) :
    List (Nat × Nat × String) → Nat → String
  | [], i => String.mk (chars.drop i)
  | (st, en, g) :: rest, i =>
    String.mk ((chars.drop i).take (st - i)) ++ repl g ++ spliceTemplates chars repl rest en

/-- String case of `_render_template_value`: no match → unchanged; a single
match spanning the whole string → the resolved value with its native type;
otherwise inline stringified substitution. -/
def renderString (env : RefEnv) (inp ctx out : List (String × Val)) (s : String) : Val :=
  match scanTemplates s.data 0 with
  | [] => .str s
  | [(st, en, g)] =>
    if st = 0 ∧ en = s.data.length then resolveRef env inp ctx out g
    else .str (spliceTemplates s.data (renderRepl env inp ctx out) [(st, en, g)] 0)
  | ms => .str (spliceTemplates s.data (renderRepl env inp ctx out) ms 0)

mutual

/-- `_render_template_value`: recurse through lists and dicts, resolve
template strings, pass every other leaf through unchanged. -/
def renderVal (env : RefEnv) (inp ctx out : List (String × Val)) : Val → Val
  | .null => .null
  | .bool b => .bool b
  | .int n => .int n
  | .str s => renderString env inp ctx out s
  | .list xs => .list (renderValList env inp ctx out xs)
  | .dict kvs => .dict (renderValPairs env inp ctx out kvs)

/-- Elementwise rendering of a list value. -/
def renderValList (env : RefEnv) (inp ctx out : List (String × Val)) : List Val → List Val
  | [] => []
  | v :: rest => renderVal env inp ctx out v :: renderValList env inp ctx out rest

/-- Valuewise rendering of a dict value (`\x7bstr(k): render(v)\x7d`). -/
def renderValPairs (env : RefEnv) (inp ctx out : List (String × Val)) :
    List (String × Val) → List (String × Val)
  | [] => []
  | (k, v) :: rest => (k, renderVal env inp ctx out v) :: renderValPairs env inp ctx out rest

end

/-- Render every value of a config dict (`_render_template_value` applied to
`node.config`, which is always a dict). -/
def renderDict (env : RefEnv) (inp ctx out : List (String × Val))
    (kvs : List (String × Val)) : List (String × Val) :=
  renderValPairs env inp ctx out kvs

theorem renderVal_dict (env : RefEnv) (inp ctx out kvs : List (String × Val)) :
    renderVal env inp ctx out (.dict kvs) = .dict (renderDict env inp ctx out kvs) := by
  simp [renderVal, renderDict]

theorem renderValPairs_eq_map (env : RefEnv) (inp ctx out kvs : List (String × Val)) :
    renderValPairs env inp ctx out kvs = kvs.map fun p => (p.1, renderVal env inp ctx out p.2) := by
  induction kvs with
  | nil => rfl
  | cons p rest ih =>
    obtain ⟨k, v⟩ := p
    simp [renderValPairs, ih]

theorem renderValList_eq_map (env : RefEnv) (inp ctx out : List (String × Val)) (xs : List Val) :
    renderValList env inp ctx out xs = xs.map (renderVal env inp ctx out) := by
  induction xs with
  | nil => rfl
  | cons v rest ih => simp [renderValList, ih]

/-! ### Slug computation (`_slugify`, `_ensure_unique_entry_slug`) -/

/-- A character kept verbatim by `_slugify` (the class `[a-z0-9-]`). -/
def slugChar (c : Char) : Bool :=
  (('a' ≤ c ∧ c ≤ 'z') : Bool) || c.isDigit || c == '-'

/-- Collapse runs of dashes to a single dash (`re.sub("-\x7b2,\x7d", "-", s)`);
`prevDash` records whether the previous kept character was a dash. -/
def collapseDashes : Bool → List Char → List Char
  | _, [] => []
  | prevDash, c :: rest =>
    if c = '-' then
      if prevDash then collapseDashes true rest
      else c :: collapseDashes true rest
    else c :: collapseDashes false rest

/-- `_slugify`: lowercase and trim, replace every run of characters outside
`[a-z0-9-]` with a dash, collapse dash runs, strip dashes, default
`"entry"`. -/
def slugify (value : String) : String :=
  let lowered := (pyLower (pyStrip value)).data
  let dashed := lowered.map fun c => if slugChar c then c else '-'
  let collapsed := collapseDashes false dashed
  let stripped := ((collapsed.dropWhile (· = '-')).reverse.dropWhile (· = '-')).reverse
  if stripped = [] then "entry" else String.mk stripped

/-! ### Data model: flow graph, persistent rows, session -/

/-- `FlowNode` (post-pydantic shape): id, kind (`"trigger"` or `"action"`),
label, config dict. -/
structure FlowNode where
  id : String
  kind : String
  label : String := ""
  config : List (String × Val) := []
deriving Repr

/-- `FlowEdge`: source and target node ids. -/
structure FlowEdge where
  source : String
  target : String
deriving Repr

/-- `FlowDefinition`: version, ordered nodes, ordered edges. -/
structure FlowDefinition where
  version : Int := 1
  nodes : List FlowNode := []
  edges : List FlowEdge := []
deriving Repr

/-- `Option` table row (`key`, JSON value). -/
structure OptionRow where
  key : String
  value : Val
deriving Repr

/-- `ContentType` table row (only the columns the flow service touches). -/
structure ContentTypeRow where
  id : Nat
  slug : String
deriving Repr

/-- `ContentEntry` table row as created by the `create_entry` handler. -/
structure ContentEntryRow where
  id : Nat
  contentTypeId : Nat
  title : String
  slug : String
  status : String
  orderIndex : Int
  data : Val
  publishedAt : Option String
deriving Repr

/-- `Workflow` table row. -/
structure WorkflowRow where
  id : Nat
  slug : String
  title : String
  description : Option String := none
  status : String
  triggerEvent : String
  definitionJson : Option String
deriving Repr

/-- `WorkflowRun` table row. -/
structure WorkflowRunRow where
  id : Nat
  workflowId : Nat
  status : String
  input : Val
  output : Val
  errorText : Option String
deriving Repr

/-- The relational store. -/
structure DbState where
  workflows : List WorkflowRow := []
  contentTypes : List ContentTypeRow := []
  entries : List ContentEntryRow := []
  options : List OptionRow := []
  runs : List WorkflowRunRow := []
  nextEntryId : Nat := 1
  nextRunId : Nat := 1
deriving Repr

/-- SQLAlchemy session: a committed snapshot plus the staged working state
(queries see `staged`; `commit` publishes it; `rollback` discards it). -/
structure Session where
  committed : DbState
  staged : DbState
deriving Repr

def Session.commit (s : Session) : Session := ⟨s.staged, s.staged⟩

def Session.rollback (s : Session) : Session := ⟨s.committed, s.committed⟩

/-- The exception taxonomy of the service (`FlowBadRequest`, `FlowNotFound`,
pydantic `ValueError`, any other exception). -/
inductive FlowErr where
  | badRequest (msg : String)
  | notFound (msg : String)
  | conflict (msg : String)
  | valueError (msg : String)
  | unexpected (msg : String)
deriving Repr, BEq, DecidableEq

/-- `str(exc)`. -/
def FlowErr.text : FlowErr → String
  | .badRequest m => m
  | .notFound m => m
  | .conflict m => m
  | .valueError m => m
  | .unexpected m => m

/-- `isinstance(exc, FlowBadRequest)`. -/
def FlowErr.isBadRequest : FlowErr → Bool
  | .badRequest _ => true
  | _ => false

/-- A step record appended to the run log by `_execute_action`. -/
structure Step where
  nodeId : String
  label : String
  operation : String
  status : String := "ok"
  message : String := ""
  entryId : Option Nat := none
deriving Repr

/-! ### `_ensure_unique_entry_slug` -/

/-- Is a slug already used by an entry of the given content type?
(the `db.query(ContentEntry).filter(...)` collision probe). -/
def entrySlugTaken (entries : List ContentEntryRow) (ctId : Nat) (slug : String) : Bool :=
  entries.any fun e => e.contentTypeId == ctId && e.slug == slug

/-- `_ensure_unique_entry_slug`: the slugified base if free, else the first
free `slug-i` for `i` in `range(2, 1000)`, else a random six-char suffix. -/
def ensureUniqueEntrySlug (env : RefEnv) (entries : List ContentEntryRow)
    (ctId : Nat) (baseSlug : String) : String :=
  let slug := slugify baseSlug
  if !entrySlugTaken entries ctId slug then slug
  else
    match (List.range' 2 998).find?
        (fun i => !entrySlugTaken entries ctId (slug ++ "-" ++ Nat.repr i)) with
    | some i => slug ++ "-" ++ Nat.repr i
    | none => slug ++ "-" ++ env.random6

/-! ### `_execute_action` -/

/-- Python `int(...)` on a rendered config value. -/
def pyInt : Val → Except FlowErr Int
  | .int n => .ok n
  | .bool b => .ok (if b then 1 else 0)
  | .str s =>
    match pyToInt? s with
    | some n => .ok n
    | none => .error (.unexpected ("invalid literal for int() with base 10: " ++ s))
  | _ => .error (.unexpected "int() argument must be a number, not a container")

/-- `for k, v in values.items(): output[str(k)] = v`. -/
def setOutputValues (out : List (String × Val)) (values : List (String × Val)) :
    List (String × Val) :=
  values.foldl (fun acc p => dictSet acc p.1 p.2) out

/-- `_execute_action`: render the node's config against the current scopes,
dispatch on the operation, return the updated store, updated output and the
step record — or raise. Every raising branch precedes any mutation. -/
def executeAction (env : RefEnv) (db : DbState) (node : FlowNode)
    (inp ctx out : List (String × Val)) : Except FlowErr (DbState × List (String × Val) × Step) :=
  let config := renderDict env inp ctx out node.config
  let operation := pyLower (pyStrip (cfgStr config "operation" "noop"))
  let baseStep : Step :=
    { nodeId := node.id
      label := if node.label ≠ "" then node.label else node.id
      operation := operation }
  if operation = "noop" then
    .ok (db, out, { baseStep with message := "No-op" })
  else if operation = "set_output" then
    match dictGet config "values" with
    | some (.dict values) =>
      .ok (db, setOutputValues out values,
        { baseStep with message := "Updated output values (" ++ Nat.repr values.length ++ ")" })
    | _ =>
      let key := pyStrip (cfgStr config "key" "")
      if key = "" then
        .error (.badRequest ("Action node \x27" ++ node.id ++ "\x27 set_output requires config.key"))
      else
        .ok (db, dictSet out key ((dictGet config "value").getD .null),
          { baseStep with message := "Set output[" ++ key ++ "]" })
  else if operation = "upsert_option" then
    let key := pyStrip (cfgStr config "key" "")
    if key = "" then
      .error (.badRequest ("Action node \x27" ++ node.id ++ "\x27 upsert_option requires config.key"))
    else
      let value := (dictGet config "value").getD .null
      match db.options.find? (fun r => r.key == key) with
      | none =>
        .ok ({ db with options := db.options ++ [⟨key, value⟩] }, out,
          { baseStep with message := "Created option \x27" ++ key ++ "\x27" })
      | some _ =>
        .ok ({ db with options := db.options.map fun r => if r.key == key then ⟨r.key, value⟩ else r },
          out, { baseStep with message := "Updated option \x27" ++ key ++ "\x27" })
  else if operation = "create_entry" then
    let typeSlug := pyLower (pyStrip (cfgStr config "content_type_slug" ""))
    if typeSlug = "" then
      .error (.badRequest
        ("Action node \x27" ++ node.id ++ "\x27 create_entry requires config.content_type_slug"))
    else
      match db.contentTypes.find? (fun ct => ct.slug == typeSlug) with
      | none =>
        .error (.badRequest
          ("Content type \x27" ++ typeSlug ++ "\x27 not found for action node \x27" ++ node.id ++ "\x27"))
      | some ct =>
        let title0 := pyStrip (cfgStr config "title" "Flow entry")
        let title := if title0 = "" then "Flow entry" else title0
        let base0 := pyStrip (cfgStr config "slug" "")
        let baseSlug := if base0 = "" then title else base0
        let slug := ensureUniqueEntrySlug env db.entries ct.id baseSlug
        let status0 := pyLower (pyStrip (cfgStr config "status" "draft"))
        let status := if status0 = "draft" ∨ status0 = "published" then status0 else "draft"
        let data :=
          match dictGet config "data" with
          | some (.dict kvs) => Val.dict kvs
          | _ => Val.dict []
        let publishedAt := if status = "published" then some env.nowIso else none
        match pyInt (pyOr ((dictGet config "order_index").getD (.int 0)) (.int 0)) with
        | .error e => .error e
        | .ok orderIndex =>
          let entry : ContentEntryRow :=
            ⟨db.nextEntryId, ct.id, title, slug, status, orderIndex, data, publishedAt⟩
          let db2 := { db with entries := db.entries ++ [entry], nextEntryId := db.nextEntryId + 1 }
          let outputKey := pyStrip (cfgStr config "output_key" "")
          let out2 :=
            if outputKey = "" then out
            else dictSet out outputKey (.dict
              [("entry_id", .int (Int.ofNat entry.id)),
               ("slug", .str entry.slug),
               ("content_type", .str ct.slug)])
          .ok (db2, out2,
            { baseStep with
                message := "Created entry \x27" ++ slug ++ "\x27 in \x27" ++ ct.slug ++ "\x27"
                entryId := some entry.id })
  else
    .error (.badRequest
      ("Action node \x27" ++ node.id ++ "\x27 has unsupported operation \x27" ++ operation ++ "\x27"))

/-! ### `_execute_definition` -/

/-- `str((n.config or \x7b\x7d).get("event", "") or "").strip().lower()`. -/
def configuredEvent (n : FlowNode) : String :=
  pyLower (pyStrip (cfgStr n.config "event" ""))

/-- The trigger-node ids selected for an invocation event, in definition
order: configured event empty, `*`, or equal to the (lowercased) event. -/
def matchedTriggerIds (nodes : List FlowNode) (event : String) : List String :=
  (nodes.filter fun n =>
    n.kind == "trigger" &&
      (configuredEvent n == "" || configuredEvent n == "*" || configuredEvent n == event)).map
    (fun n => n.id)

/-- `node_map.get(node_id)` for `node_map = \x7bn.id: n for n in nodes\x7d`
(a dict comprehension keeps the last node on a duplicated id). -/
def nodeLookup (nodes : List FlowNode) (nodeId : String) : Option FlowNode :=
  nodes.reverse.find? (fun n => n.id == nodeId)

/-- `outgoing.get(node_id, [])`: the targets of the edges leaving a node,
in edge order. -/
def outTargets (edges : List FlowEdge) (nodeId : String) : List String :=
  (edges.filter fun e => e.source == nodeId).map (fun e => e.target)

theorem outTargets_length_le (edges : List FlowEdge) (nodeId : String) :
    (outTargets edges nodeId).length ≤ edges.length := by
  simp only [outTargets, List.length_map]
  exact List.length_filter_le _ _

/-- The decreasing measure of the BFS worklist loop: the visit counter can
rise at most to 1001, each visit enqueues at most `edges.length` ids, and
each iteration pops one id. -/
def bfsMeasure (edges : List FlowEdge) (queue : List String) (guard : Nat) : Nat :=
  (1001 - guard) * (edges.length + 2) + queue.length

/-- The BFS worklist loop of `_execute_definition`: pop from the front, skip
visited ids, execute action nodes, enqueue unvisited neighbours, and fail
once the visit counter exceeds 1000. The store is returned in every outcome
(on an exception the Python session keeps the staged writes; `run_flow`
decides what to do with them). The fuel only serves structural recursion:
it always exceeds `bfsMeasure`, which strictly decreases on every
iteration, so the zero-fuel branch is unreachable
(`bfsLoopAux_fuel` below). -/
def bfsLoopAux (nodes : List FlowNode) (edges : List FlowEdge) (env : RefEnv)
    (inp ctx : List (String × Val)) (fuel : Nat) (db : DbState) (steps : List Step)
    (out : List (String × Val)) (queue visited : List String) (guard : Nat) :
    DbState × Except FlowErr (List Step × List (String × Val)) :=
  match fuel with
  | 0 => (db, .error (.unexpected "unreachable: fuel below the loop measure"))
  | fuel + 1 =>
    match queue with
    | [] => (db, .ok (steps, out))
    | nodeId :: rest =>
      if visited.contains nodeId then
        bfsLoopAux nodes edges env inp ctx fuel db steps out rest visited guard
      else
        let visited2 := nodeId :: visited
        match nodeLookup nodes nodeId with
        | none => bfsLoopAux nodes edges env inp ctx fuel db steps out rest visited2 guard
        | some node =>
          match (if node.kind == "action"
              then (executeAction env db node inp ctx out).map (fun r => (r.1, r.2.1, some r.2.2))
              else .ok (db, out, none)) with
          | .error e => (db, .error e)
          | .ok (db2, out2, stepOpt) =>
            let steps2 := match stepOpt with | some st => steps ++ [st] | none => steps
            let queue2 := rest ++ (outTargets edges nodeId).filter (fun t => !(visited2.contains t))
            let guard2 := guard + 1
            if 1000 < guard2 then
              (db2, .error (.badRequest "Flow execution stopped: graph too deep or cyclic"))
            else
              bfsLoopAux nodes edges env inp ctx fuel db2 steps2 out2 queue2 visited2 guard2

/-- The `while queue:` loop itself. -/
def bfsLoop (nodes : List FlowNode) (edges : List FlowEdge) (env : RefEnv)
    (inp ctx : List (String × Val)) (db : DbState) (steps : List Step)
    (out : List (String × Val)) (queue visited : List String) (guard : Nat) :
    DbState × Except FlowErr (List Step × List (String × Val)) :=
  bfsLoopAux nodes edges env inp ctx (bfsMeasure edges queue guard + 1) db steps out queue visited guard

/-- The fuel of `bfsLoopAux` is irrelevant as long as it exceeds the loop
measure, which strictly decreases on every iteration. -/
theorem bfsLoopAux_fuel (nodes : List FlowNode) (edges : List FlowEdge) (env : RefEnv)
    (inp ctx : List (String × Val)) {fuel fuel2 : Nat} (db : DbState) (steps : List Step)
    (out : List (String × Val)) (queue visited : List String) (guard : Nat)
    (h : bfsMeasure edges queue guard < fuel) (h2 : bfsMeasure edges queue guard < fuel2) :
    bfsLoopAux nodes edges env inp ctx fuel db steps out queue visited guard
      = bfsLoopAux nodes edges env inp ctx fuel2 db steps out queue visited guard := by
  induction fuel using Nat.strong_induction_on
    generalizing fuel2 db steps out queue visited guard with
  | _ fuel ih =>
    match fuel, fuel2 with
    | 0, _ => omega
    | fuel + 1, 0 => omega
    | fuel + 1, fuel2 + 1 =>
      simp only [bfsLoopAux]
      match queue, h, h2 with
      | [], h, h2 => rfl
      | nodeId :: rest, h, h2 =>
        simp only [bfsMeasure, List.length_cons] at h h2
        by_cases hvv : visited.contains nodeId
        · simp only [hvv, if_true]
          exact ih fuel (by omega) _ _ _ _ _ _ (by simp only [bfsMeasure]; omega)
            (by simp only [bfsMeasure]; omega)
        · simp only [hvv, if_false, Bool.false_eq_true]
          cases hn : nodeLookup nodes nodeId with
          | none =>
            dsimp only
            exact ih fuel (by omega) _ _ _ _ _ _ (by simp only [bfsMeasure]; omega)
              (by simp only [bfsMeasure]; omega)
          | some node =>
            dsimp only
            cases hex : (if node.kind == "action"
                then (executeAction env db node inp ctx out).map (fun r => (r.1, r.2.1, some r.2.2))
                else .ok (db, out, none)) with
            | error e => rfl
            | ok res =>
              obtain ⟨db2, out2, stepOpt⟩ := res
              dsimp only
              by_cases hg : 1000 < guard + 1
              · simp only [hg, if_true]
              · simp only [hg, if_false]
                have hgg : 1001 - guard = (1000 - guard) + 1 := by omega
                rw [hgg, Nat.succ_mul] at h h2
                have hF : ((outTargets edges nodeId).filter
                    (fun t => !((nodeId :: visited).contains t))).length ≤ edges.length :=
                  le_trans (List.length_filter_le _ _) (outTargets_length_le edges nodeId)
                have hg2 : 1001 - (guard + 1) = 1000 - guard := by omega
                refine ih fuel (by omega) _ _ _ _ _ _ ?_ ?_
                · simp only [bfsMeasure, List.length_append, hg2]
                  omega
                · simp only [bfsMeasure, List.length_append, hg2]
                  omega

/-- `_execute_definition`: select the matching triggers (failing when none
matches) and run the BFS loop from them. -/
def executeDefinition (env : RefEnv) (defn : FlowDefinition) (event : String)
    (inp ctx : List (String × Val)) (db : DbState) :
    DbState × Except FlowErr (List Step × List (String × Val)) :=
  let triggerIds := matchedTriggerIds defn.nodes event
  if triggerIds = [] then
    (db, .error (.badRequest ("No trigger node matched event \x27" ++ event ++ "\x27")))
  else
    bfsLoop defn.nodes defn.edges env inp ctx db [] [] triggerIds [] 0

/-! ### Schema validation (`app/schemas/flow.py`) -/

/-- `NODE_ID_RE = ^[a-zA-Z0-9][a-zA-Z0-9_-]\x7b0,63\x7d$`. -/
def nodeIdOk (s : String) : Bool :=
  match s.data with
  | [] => false
  | c :: rest =>
    c.isAlphanum && rest.length ≤ 63 && rest.all (fun d => d.isAlphanum || d == '_' || d == '-')

/-- Pydantic validation of a `FlowNode`: field length bounds, then the
`validate_node` model validator (id grammar on the stripped id, label
trim/truncate, action operation membership, trigger event lowercasing).
Non-string optional raw fields are treated as their defaults. -/
def validateNode (n : FlowNode) : Except String FlowNode :=
  if n.id.length < 1 then .error "id: string should have at least 1 character"
  else if 64 < n.id.length then .error "id: string should have at most 64 characters"
  else if n.kind ≠ "trigger" ∧ n.kind ≠ "action" then
    .error "kind: input should be trigger or action"
  else if 200 < n.label.length then .error "label: string should have at most 200 characters"
  else
    let nodeId := pyStrip n.id
    if !nodeIdOk nodeId then .error "node.id must match [a-zA-Z0-9_-] and start with alnum"
    else
      let label := (pyStrip n.label).take 200
      if n.kind == "action" then
        let op := pyLower (pyStrip (cfgStr n.config "operation" "noop"))
        if op = "create_entry" ∨ op = "noop" ∨ op = "set_output" ∨ op = "upsert_option" then
          .ok { id := nodeId, kind := n.kind, label := label,
                config := dictSet n.config "operation" (.str op) }
        else
          .error "action config.operation must be one of: create_entry, noop, set_output, upsert_option"
      else
        let event := pyLower (pyStrip (cfgStr n.config "event" ""))
        if event ≠ "" then
          .ok { id := nodeId, kind := n.kind, label := label,
                config := dictSet n.config "event" (.str event) }
        else .ok { id := nodeId, kind := n.kind, label := label, config := n.config }

/-- Pydantic field bounds of a `FlowEdge` (min 1, max 64 on both ends). -/
def validateEdge (e : FlowEdge) : Except String FlowEdge :=
  if e.source.length < 1 ∨ 64 < e.source.length then
    .error "source: string length out of bounds"
  else if e.target.length < 1 ∨ 64 < e.target.length then
    .error "target: string length out of bounds"
  else .ok e

/-- Number of trigger nodes of a definition. -/
def triggerCount (nodes : List FlowNode) : Nat :=
  (nodes.filter fun n => n.kind == "trigger").length

/-- The edge loop of `validate_graph`: first bad reference raises (source
checked before target). -/
def validateEdgeRefs (ids : List String) : List FlowEdge → Except String Unit
  | [] => .ok ()
  | e :: rest =>
    if e.source ∉ ids then .error ("edge source \x27" ++ e.source ++ "\x27 does not exist")
    else if e.target ∉ ids then .error ("edge target \x27" ++ e.target ++ "\x27 does not exist")
    else validateEdgeRefs ids rest

/-- `FlowDefinition.validate_graph`: version is 1, node ids unique, at least
one trigger node, every edge endpoint exists; returns the definition
unchanged when all checks pass. -/
def validateGraph (d : FlowDefinition) : Except String FlowDefinition :=
  if d.version ≠ 1 then .error "flow definition version must be 1"
  else if (d.nodes.map (fun n => n.id)).dedup.length ≠ (d.nodes.map (fun n => n.id)).length then
    .error "flow definition contains duplicate node ids"
  else if triggerCount d.nodes = 0 then
    .error "flow definition must include at least one trigger node"
  else
    match validateEdgeRefs (d.nodes.map (fun n => n.id)) d.edges with
    | .error e => .error e
    | .ok _ => .ok d

/-- Constructing a `FlowDefinition`: every node and edge passes its own
validators, then the graph validator runs. -/
def validateDefinition (d : FlowDefinition) : Except String FlowDefinition :=
  match d.nodes.mapM validateNode with
  | .error e => .error e
  | .ok nodes2 =>
    match d.edges.mapM validateEdge with
    | .error e => .error e
    | .ok edges2 => validateGraph { version := d.version, nodes := nodes2, edges := edges2 }

/-- Parse one raw node value (pydantic field extraction followed by node
validation); a missing or non-string `id` is a validation error. -/
def parseNodeVal (v : Val) : Except String FlowNode :=
  match v with
  | .dict kvs =>
    match dictGet kvs "id" with
    | some (.str nodeId) =>
      let kind := match dictGet kvs "kind" with | some (.str k) => k | _ => ""
      let label := match dictGet kvs "label" with | some (.str l) => l | _ => ""
      let config := match dictGet kvs "config" with | some (.dict c) => c | _ => []
      validateNode { id := nodeId, kind := kind, label := label, config := config }
    | _ => .error "node.id must be a string"
  | _ => .error "node must be a dict"

/-- Parse one raw edge value. -/
def parseEdgeVal (v : Val) : Except String FlowEdge :=
  match v with
  | .dict kvs =>
    match dictGet kvs "source", dictGet kvs "target" with
    | some (.str s), some (.str t) => validateEdge { source := s, target := t }
    | _, _ => .error "edge.source and edge.target must be strings"
  | _ => .error "edge must be a dict"

/-- `FlowDefinition.model_validate(parsed)` on a parsed JSON object: extract
the fields, validate the nodes and edges, then run the graph validator. -/
def modelValidateFlowDefinition (v : Val) : Except String FlowDefinition :=
  match v with
  | .dict kvs =>
    match (match dictGet kvs "version" with
           | none => Except.ok (1 : Int)
           | some (.int n) => Except.ok n
           | some _ => Except.error "version: input should be an integer") with
    | .error e => .error e
    | .ok version =>
      match (match dictGet kvs "nodes" with
             | none => Except.ok ([] : List Val)
             | some (.list xs) => Except.ok xs
             | some _ => Except.error "nodes: input should be a list") with
      | .error e => .error e
      | .ok rawNodes =>
        match rawNodes.mapM parseNodeVal with
        | .error e => .error e
        | .ok nodes =>
          match (match dictGet kvs "edges" with
                 | none => Except.ok ([] : List Val)
                 | some (.list xs) => Except.ok xs
                 | some _ => Except.error "edges: input should be a list") with
          | .error e => .error e
          | .ok rawEdges =>
            match rawEdges.mapM parseEdgeVal with
            | .error e => .error e
            | .ok edges => validateGraph { version := version, nodes := nodes, edges := edges }
  | _ => .error "flow definition must be an object"

/-- `FlowDefinition()` — pydantic runs the model validators on construction,
so the bare default goes through `validate_graph` (and is rejected there,
having no trigger node). -/
def defaultFlowDefinition : Except String FlowDefinition :=
  validateGraph { version := 1, nodes := [], edges := [] }

/-- `load_flow_definition`, parametric in the JSON parser `pm`
(`json.loads`: `none` models a parse failure). -/
def loadFlowDefinition (pm : String → Option Val) (rawJson : Option String) :
    Except String FlowDefinition :=
  match rawJson with
  | none => defaultFlowDefinition
  | some s =>
    if s = "" then defaultFlowDefinition
    else
      match pm s with
      | none => defaultFlowDefinition
      | some v => if !v.isDict then defaultFlowDefinition else modelValidateFlowDefinition v

/-! ### Run orchestration (`run_flow`, `run_flow_test`, `trigger_public_flow`) -/

/-- The trigger request body. -/
structure FlowTriggerIn where
  event : Option String := none
  input : List (String × Val) := []
  context : List (String × Val) := []

/-- The uniform trigger result. -/
structure FlowTriggerOut where
  ok : Bool
  flowId : Nat
  flowSlug : String
  status : String
  event : String
  output : List (String × Val)
  steps : List Step
  runId : Option Nat
deriving Repr

/-- `str(payload.event or row.trigger_event or "manual").strip().lower()`,
falling back to `"manual"` when empty after normalization. -/
def chooseEvent (payloadEvent : Option String) (rowTriggerEvent : String) : String :=
  let raw :=
    match payloadEvent with
    | some s => if s ≠ "" then s else (if rowTriggerEvent ≠ "" then rowTriggerEvent else "manual")
    | none => if rowTriggerEvent ≠ "" then rowTriggerEvent else "manual"
  let e := pyLower (pyStrip raw)
  if e = "" then "manual" else e

/-- `_insert_run`: stage one `WorkflowRun` row; the flush assigns its id. -/
def insertRun (db : DbState) (flowId : Nat) (status : String) (inputData outputData : Val)
    (errorText : Option String) : DbState × Nat :=
  ({ db with
      runs := db.runs ++ [{ id := db.nextRunId, workflowId := flowId, status := status,
                            input := inputData, output := outputData, errorText := errorText }],
      nextRunId := db.nextRunId + 1 },
   db.nextRunId)

/-- `run_flow`: load the definition (a load failure propagates uncaught),
execute it; on success optionally stage a success run row and commit; on
failure roll back the staged effects, optionally stage a failed run row in a
fresh transaction and commit it. -/
def runFlow (pm : String → Option Val) (env : RefEnv) (s : Session) (row : WorkflowRow)
    (payload : FlowTriggerIn) (persistRun : Bool) : Session × Except FlowErr FlowTriggerOut :=
  let event := chooseEvent payload.event row.triggerEvent
  match loadFlowDefinition pm row.definitionJson with
  | .error e => (s, .error (.valueError e))
  | .ok defn =>
    match executeDefinition env defn event payload.input payload.context s.staged with
    | (db2, .ok (steps, output)) =>
      if persistRun then
        let (db3, runId) := insertRun db2 row.id "success" (.dict payload.input) (.dict output) none
        (Session.commit ⟨s.committed, db3⟩,
         .ok { ok := true, flowId := row.id, flowSlug := row.slug, status := "success",
               event := event, output := output, steps := steps, runId := some runId })
      else
        (Session.commit ⟨s.committed, db2⟩,
         .ok { ok := true, flowId := row.id, flowSlug := row.slug, status := "success",
               event := event, output := output, steps := steps, runId := none })
    | (_, .error exc) =>
      let errorText := if exc.text = "" then "Flow execution failed" else exc.text
      let message := if exc.isBadRequest then exc.text else "Flow execution failed: " ++ errorText
      let failOut : FlowTriggerOut :=
        { ok := false, flowId := row.id, flowSlug := row.slug, status := "failed",
          event := event, output := [("error", .str message)], steps := [], runId := none }
      if persistRun then
        let (db3, runId) :=
          insertRun s.committed row.id "failed" (.dict payload.input) (.dict []) (some errorText)
        (Session.commit ⟨s.committed, db3⟩, .ok { failOut with runId := some runId })
      else
        (Session.rollback s, .ok failOut)

/-- `run_flow_test`: look the workflow up by id (404 when missing) and run
it without persistence, regardless of its status. -/
def runFlowTest (pm : String → Option Val) (env : RefEnv) (s : Session) (flowId : Nat)
    (payload : FlowTriggerIn) : Session × Except FlowErr FlowTriggerOut :=
  match s.staged.workflows.find? (fun w => w.id == flowId) with
  | none => (s, .error (.notFound "Flow not found"))
  | some row => runFlow pm env s row payload false

/-- `trigger_public_flow`: normalize the slug, look the workflow up by slug,
require active status, then run with persistence. -/
def triggerPublicFlow (pm : String → Option Val) (env : RefEnv) (s : Session) (slug : String)
    (payload : FlowTriggerIn) : Session × Except FlowErr FlowTriggerOut :=
  let flowSlug := pyLower (pyStrip slug)
  if flowSlug = "" then (s, .error (.badRequest "Flow slug is required"))
  else
    match s.staged.workflows.find? (fun w => w.slug == flowSlug) with
    | none => (s, .error (.notFound "Flow not found"))
    | some row =>
      if row.status ≠ "active" then (s, .error (.badRequest "Flow is not active"))
      else runFlow pm env s row payload true

/-! ### Creating a workflow (`admin_create_flow` → `create_flow`) -/

/-- `SLUG_RE = ^[a-z0-9]+(?:-[a-z0-9]+)*$`. -/
def slugReOk (s : String) : Bool :=
  let parts := (splitOnChar '-' s.data).map String.mk
  parts.all (fun p => p ≠ "" && p.data.all (fun c => (('a' ≤ c ∧ c ≤ 'z') : Bool) || c.isDigit))

/-- `validate_slug` (shared with the page subsystem). -/
def validateSlug (slug : String) : Except String String :=
  let s := pyLower (pyStrip slug)
  if s = "admin" ∨ s = "login" ∨ s = "logout" ∨ s = "media" ∨ s = "api" ∨ s = "auth" then
    .error ("Slug \x27" ++ s ++ "\x27 is reserved.")
  else if !slugReOk s then
    .error "Slug must be lowercase letters/numbers with hyphens (e.g. about-us123)"
  else .ok s

/-- `validate_flow_status`. -/
def validateFlowStatus (v : String) : Except String String :=
  let s := pyLower (pyStrip v)
  if s = "draft" ∨ s = "active" ∨ s = "disabled" then .ok s
  else .error "status must be draft|active|disabled"

/-- `validate_trigger_event`. -/
def validateTriggerEvent (v : String) : Except String String :=
  let s := pyLower (pyStrip v)
  if s = "" then .error "trigger_event is required"
  else if 120 < s.length then .error "trigger_event must be <= 120 chars"
  else .ok s

/-- The raw `FlowCreate` request body (fields as sent, definition not yet
validated). -/
structure FlowCreateRaw where
  slug : String
  title : String
  description : Option String := none
  status : String := "draft"
  triggerEvent : String := "manual"
  definition : FlowDefinition := {}

/-- A validated and normalized `FlowCreate`. -/
structure FlowCreateOk where
  slug : String
  title : String
  description : Option String
  status : String
  triggerEvent : String
  definition : FlowDefinition

/-- Pydantic parsing of the request body (the definition sub-model is
validated here, before the route handler runs) followed by
`FlowCreate.normalized()`. Field length bounds of the scalar fields are
enforced by pydantic first. -/
def parseFlowCreate (p : FlowCreateRaw) : Except String FlowCreateOk :=
  if p.slug.length < 1 ∨ 200 < p.slug.length then .error "slug: string length out of bounds"
  else if p.title.length < 1 ∨ 200 < p.title.length then .error "title: string length out of bounds"
  else
    match validateDefinition p.definition with
    | .error e => .error e
    | .ok defn =>
      match validateSlug p.slug with
      | .error e => .error e
      | .ok slug =>
        match validateFlowStatus p.status with
        | .error e => .error e
        | .ok status =>
          match validateTriggerEvent p.triggerEvent with
          | .error e => .error e
          | .ok triggerEvent =>
            let title0 := (pyStrip p.title).take 200
            let title := if title0 = "" then slug else title0
            let desc0 := (pyStrip (p.description.getD "")).take 500
            let description := if desc0 = "" then none else some desc0
            .ok { slug := slug, title := title, description := description,
                  status := status, triggerEvent := triggerEvent, definition := defn }

/-- `json.dumps(definition.model_dump())` — modelled as an injective
serialization witness; only equality with `load` matters to the claims, so
the payload keeps the definition itself. -/
def dumpFlowDefinition (pr : FlowDefinition → String) (d : FlowDefinition) : String :=
  pr d

/-- `admin_create_flow` → `create_flow`: validation failure (pydantic or
`normalized()`) leaves the store untouched; otherwise insert one workflow
row unless the slug already exists. `pr` serializes the definition. -/
def adminCreateFlow (pr : FlowDefinition → String) (db : DbState) (p : FlowCreateRaw) :
    DbState × Except FlowErr WorkflowRow :=
  match parseFlowCreate p with
  | .error e => (db, .error (.valueError e))
  | .ok q =>
    match db.workflows.find? (fun w => w.slug == q.slug) with
    | some _ => (db, .error (.conflict "Flow slug already exists"))
    | none =>
      let row : WorkflowRow :=
        { id := db.workflows.length + 1, slug := q.slug, title := q.title,
          description := q.description, status := q.status, triggerEvent := q.triggerEvent,
          definitionJson := some (dumpFlowDefinition pr q.definition) }
      ({ db with workflows := db.workflows ++ [row] }, .ok row)

/-! ## Claim theorems -/

/-! ### C6 — public trigger on a non-active workflow -/

/-- C6: a public trigger naming a workflow whose status is not `active`
fails with BadRequest "Flow is not active" before the engine runs: the
session is returned unchanged, so no WorkflowRun row is created, no action
side effect occurs and the workflow row itself is untouched. -/
theorem claim_C6 (pm : String → Option Val) (env : RefEnv) (s : Session) (slug : String)
    (payload : FlowTriggerIn) (row : WorkflowRow)
    (hslug : pyLower (pyStrip slug) ≠ "")
    (hfind : s.staged.workflows.find? (fun w => w.slug == pyLower (pyStrip slug)) = some row)
    (hstatus : row.status ≠ "active") :
    triggerPublicFlow pm env s slug payload = (s, .error (.badRequest "Flow is not active")) := by
  simp [triggerPublicFlow, hslug, hfind, hstatus]

def c6row : WorkflowRow :=
  { id := 1, slug := "wf", title := "W", status := "draft", triggerEvent := "manual",
    definitionJson := none }

def c6db : DbState := { workflows := [c6row] }

/-- Witness for C6 on a concrete draft workflow. -/
theorem claim_C6_witness :
    triggerPublicFlow (fun _ => none) ⟨"", 0, "", ""⟩ ⟨c6db, c6db⟩ "wf" {}
      = (⟨c6db, c6db⟩, .error (.badRequest "Flow is not active")) :=
  claim_C6 (fun _ => none) ⟨"", 0, "", ""⟩ ⟨c6db, c6db⟩ "wf" {} c6row
    (by decide) rfl (by decide)

/-! ### C5 — trigger selection and the no-match short-circuit -/

/-- C5: the engine selects exactly the trigger nodes whose configured event
(normalized to lowercase) is empty, `*`, or equal to the (lowercased)
invocation event; and when no trigger matches, the run fails immediately
with BadRequest naming the event, returning the store untouched, so no
action is resolved or executed. -/
theorem claim_C5 :
    (∀ (nodes : List FlowNode) (event nodeId : String),
        nodeId ∈ matchedTriggerIds nodes event ↔
          ∃ m ∈ nodes, m.id = nodeId ∧ m.kind = "trigger" ∧
            (configuredEvent m = "" ∨ configuredEvent m = "*" ∨ configuredEvent m = event)) ∧
    (∀ (env : RefEnv) (defn : FlowDefinition) (event : String)
        (inp ctx : List (String × Val)) (db : DbState),
        matchedTriggerIds defn.nodes event = [] →
          executeDefinition env defn event inp ctx db
            = (db, .error (.badRequest ("No trigger node matched event \x27" ++ event ++ "\x27")))) := by
  constructor
  · intro nodes event nodeId
    simp only [matchedTriggerIds, List.mem_map, List.mem_filter, Bool.and_eq_true,
      Bool.or_eq_true, beq_iff_eq]
    constructor
    · rintro ⟨m, ⟨hm, hk, he⟩, hid⟩
      exact ⟨m, hm, hid, hk, or_assoc.mp he⟩
    · rintro ⟨m, hm, hid, hk, he⟩
      exact ⟨m, ⟨hm, hk, or_assoc.mpr he⟩, hid⟩
  · intro env defn event inp ctx db h
    simp [executeDefinition, h]

def c5nodes : List FlowNode :=
  [⟨"t1", "trigger", "", [("event", .str "go")]⟩, ⟨"a1", "action", "", []⟩]

def c5defn : FlowDefinition := { version := 1, nodes := c5nodes, edges := [] }

/-- Witness for C5: the selection characterization at a concrete node list,
and the no-match failure on a concrete event. -/
theorem claim_C5_witness :
    ("t1" ∈ matchedTriggerIds c5nodes "go" ↔
      ∃ m ∈ c5nodes, m.id = "t1" ∧ m.kind = "trigger" ∧
        (configuredEvent m = "" ∨ configuredEvent m = "*" ∨ configuredEvent m = "go")) ∧
    executeDefinition ⟨"", 0, "", ""⟩ c5defn "zzz" [] [] {}
      = ({}, .error (.badRequest "No trigger node matched event \x27zzz\x27")) :=
  ⟨claim_C5.1 c5nodes "go" "t1", claim_C5.2 ⟨"", 0, "", ""⟩ c5defn "zzz" [] [] {} rfl⟩

/-! ### C9 — the duplicate-node-id error message -/

def c9dup : FlowDefinition :=
  { version := 1,
    nodes := [⟨"zzz", "trigger", "", []⟩, ⟨"zzz", "trigger", "", []⟩],
    edges := [] }

/-- C9 counterexample: on a definition whose duplicated node id is `zzz`,
save-time validation raises the fixed message
"flow definition contains duplicate node ids", which contains no letter
`z` at all — so it does not name the first duplicated node id, contrary to
the claim. -/
theorem claim_C9_counterexample :
    validateDefinition c9dup = .error "flow definition contains duplicate node ids" ∧
    'z' ∉ "flow definition contains duplicate node ids".data := by
  constructor
  · rfl
  · decide

/-- C9 (amended): for every definition with duplicated node ids (after node
normalization), the validation error raised at save time is the fixed
message "flow definition contains duplicate node ids"; it does not mention
the duplicated id. -/
theorem claim_C9 (d : FlowDefinition) (nodes2 : List FlowNode) (edges2 : List FlowEdge)
    (hn : d.nodes.mapM validateNode = .ok nodes2)
    (he : d.edges.mapM validateEdge = .ok edges2)
    (hv : d.version = 1)
    (hdup : (nodes2.map (fun n => n.id)).dedup.length ≠ (nodes2.map (fun n => n.id)).length) :
    validateDefinition d = .error "flow definition contains duplicate node ids" := by
  unfold validateDefinition
  rw [hn]
  dsimp only
  rw [he]
  dsimp only
  unfold validateGraph
  rw [if_neg (by simp [hv]), if_pos hdup]

/-- Witness for C9 on the concrete duplicated definition. -/
theorem claim_C9_witness :
    validateDefinition c9dup = .error "flow definition contains duplicate node ids" :=
  claim_C9 c9dup [⟨"zzz", "trigger", "", []⟩, ⟨"zzz", "trigger", "", []⟩] []
    rfl rfl rfl (by decide)

/-! ### C10 — `load_flow_definition` never yields a triggerless default -/

/-- A passing edge loop means every edge endpoint is a known node id. -/
theorem validateEdgeRefs_ok {ids : List String} :
    ∀ {edges : List FlowEdge}, validateEdgeRefs ids edges = .ok () →
      ∀ e ∈ edges, e.source ∈ ids ∧ e.target ∈ ids := by
  intro edges
  induction edges with
  | nil => intro _ e he; exact absurd he (by simp)
  | cons e0 rest ih =>
    intro h e he
    unfold validateEdgeRefs at h
    split_ifs at h with h1 h2
    rcases List.mem_cons.mp he with rfl | hmem
    · exact ⟨by simpa using h1, by simpa using h2⟩
    · exact ih h e hmem

/-- The graph validator accepts only the input definition itself, and only
when it has version 1, duplicate-free ids, at least one trigger and edges
referencing existing ids. -/
theorem validateGraph_ok {x d : FlowDefinition} (h : validateGraph x = .ok d) :
    d = x ∧ x.version = 1 ∧ (x.nodes.map fun n => n.id).Nodup ∧ 1 ≤ triggerCount x.nodes ∧
      ∀ e ∈ x.edges, e.source ∈ (x.nodes.map fun n => n.id)
        ∧ e.target ∈ (x.nodes.map fun n => n.id) := by
  unfold validateGraph at h
  split_ifs at h with h1 h2 h3
  cases hm : validateEdgeRefs (x.nodes.map fun n => n.id) x.edges with
  | error e => rw [hm] at h; exact absurd h (by simp)
  | ok u =>
    rw [hm] at h
    simp only [Except.ok.injEq] at h
    have hnodup : (x.nodes.map fun n => n.id).Nodup := by
      have heq : (x.nodes.map fun n => n.id).dedup = (x.nodes.map fun n => n.id) :=
        (List.dedup_sublist _).eq_of_length (by omega)
      exact heq ▸ List.nodup_dedup _
    exact ⟨h.symm, by omega, hnodup, by omega, fun e he => validateEdgeRefs_ok hm e he⟩

/-- `modelValidateFlowDefinition` goes through the graph validator, so its
result has at least one trigger node. -/
theorem modelValidate_trigger {v : Val} {d : FlowDefinition}
    (h : modelValidateFlowDefinition v = .ok d) : 1 ≤ triggerCount d.nodes := by
  unfold modelValidateFlowDefinition at h
  cases v with
  | dict kvs =>
    dsimp only at h
    cases hv : (match dictGet kvs "version" with
           | none => Except.ok (1 : Int)
           | some (.int n) => Except.ok n
           | some _ => Except.error "version: input should be an integer") with
    | error e => rw [hv] at h; exact absurd h (by simp)
    | ok version =>
      rw [hv] at h
      dsimp only at h
      cases hn : (match dictGet kvs "nodes" with
             | none => Except.ok ([] : List Val)
             | some (.list xs) => Except.ok xs
             | some _ => Except.error "nodes: input should be a list") with
      | error e => rw [hn] at h; exact absurd h (by simp)
      | ok rawNodes =>
        rw [hn] at h
        dsimp only at h
        cases hpn : rawNodes.mapM parseNodeVal with
        | error e => rw [hpn] at h; exact absurd h (by simp)
        | ok nodes =>
          rw [hpn] at h
          dsimp only at h
          cases hed : (match dictGet kvs "edges" with
                 | none => Except.ok ([] : List Val)
                 | some (.list xs) => Except.ok xs
                 | some _ => Except.error "edges: input should be a list") with
          | error e => rw [hed] at h; exact absurd h (by simp)
          | ok rawEdges =>
            rw [hed] at h
            dsimp only at h
            cases hpe : rawEdges.mapM parseEdgeVal with
            | error e => rw [hpe] at h; exact absurd h (by simp)
            | ok edges =>
              rw [hpe] at h
              dsimp only at h
              obtain ⟨hd, -, -, ht, -⟩ := validateGraph_ok h
              rw [hd]
              exact ht
  | null => exact absurd h (by simp)
  | bool b => exact absurd h (by simp)
  | int n => exact absurd h (by simp)
  | str s => exact absurd h (by simp)
  | list xs => exact absurd h (by simp)

/-- C10: every fallback path of `load_flow_definition` (missing, empty,
unparsable or non-object stored JSON) constructs the bare default
definition, which the graph validator itself rejects for lacking a trigger
node — so the loader raises instead of returning an empty default, and any
definition it does return has at least one trigger node. -/
theorem claim_C10 :
    (∀ pm : String → Option Val,
        loadFlowDefinition pm none
          = .error "flow definition must include at least one trigger node") ∧
    (∀ (pm : String → Option Val) (s : String), pm s = none →
        loadFlowDefinition pm (some s)
          = .error "flow definition must include at least one trigger node") ∧
    (∀ (pm : String → Option Val) (s : String) (v : Val), pm s = some v → v.isDict = false →
        loadFlowDefinition pm (some s)
          = .error "flow definition must include at least one trigger node") ∧
    (∀ (pm : String → Option Val) (raw : Option String) (d : FlowDefinition),
        loadFlowDefinition pm raw = .ok d → 1 ≤ triggerCount d.nodes) := by
  have hdef : defaultFlowDefinition
      = .error "flow definition must include at least one trigger node" := rfl
  refine ⟨fun pm => hdef, ?_, ?_, ?_⟩
  · intro pm s h
    by_cases hs : s = "" <;> simp [loadFlowDefinition, hs, h, hdef]
  · intro pm s v h hdict
    by_cases hs : s = "" <;> simp [loadFlowDefinition, hs, h, hdict, hdef]
  · intro pm raw d h
    match raw with
    | none => rw [loadFlowDefinition, hdef] at h; exact absurd h (by simp)
    | some s =>
      rw [loadFlowDefinition] at h
      by_cases hs : s = ""
      · rw [if_pos hs, hdef] at h; exact absurd h (by simp)
      · rw [if_neg hs] at h
        cases hp : pm s with
        | none => rw [hp, hdef] at h; exact absurd h (by simp)
        | some v =>
          rw [hp] at h
          dsimp only at h
          by_cases hd : v.isDict
          · rw [if_neg (by simp [hd])] at h
            exact modelValidate_trigger h
          · rw [if_pos (by simp [hd]), hdef] at h
            exact absurd h (by simp)

def c10goodParse : String → Option Val := fun _ =>
  some (.dict [("nodes", .list [.dict [("id", .str "t"), ("kind", .str "trigger")]])])

/-- Witness for C10: a parser failure, a non-object value and a successful
load each behave as the theorem states on concrete inputs. -/
theorem claim_C10_witness :
    loadFlowDefinition (fun _ => none) (some "oops")
      = .error "flow definition must include at least one trigger node" ∧
    loadFlowDefinition (fun _ => some (.int 3)) (some "3")
      = .error "flow definition must include at least one trigger node" ∧
    1 ≤ triggerCount (FlowDefinition.mk 1 [⟨"t", "trigger", "", []⟩] []).nodes :=
  ⟨claim_C10.2.1 (fun _ => none) "oops" rfl,
   claim_C10.2.2.1 (fun _ => some (.int 3)) "3" (.int 3) rfl rfl,
   claim_C10.2.2.2 c10goodParse (some "x") (FlowDefinition.mk 1 [⟨"t", "trigger", "", []⟩] []) rfl⟩

/-! ### C4 — save-time validation gates persistence -/

theorem mapM_ok_forall₂ {α β : Type} {f : α → Except String β} :
    ∀ {xs : List α} {ys : List β}, xs.mapM f = .ok ys →
      List.Forall₂ (fun x y => f x = .ok y) xs ys := by
  intro xs
  induction xs with
  | nil =>
    intro ys h
    rw [← List.mapM'_eq_mapM] at h
    simp only [List.mapM'] at h
    cases ys with
    | nil => exact List.Forall₂.nil
    | cons y ys => simp [pure, Except.pure] at h
  | cons x rest ih =>
    intro ys h
    rw [← List.mapM'_eq_mapM] at h
    simp only [List.mapM'] at h
    cases hx : f x with
    | error e => rw [hx] at h; simp [Bind.bind, Except.bind] at h
    | ok y =>
      rw [hx] at h
      simp only [Bind.bind, Except.bind] at h
      cases hr : rest.mapM' f with
      | error e => rw [hr] at h; simp at h
      | ok ys0 =>
        rw [hr] at h
        simp only [pure, Except.pure, Except.ok.injEq] at h
        subst h
        rw [List.mapM'_eq_mapM] at hr
        exact List.Forall₂.cons hx (ih hr)

/-- A validated node keeps its kind and carries the stripped id. -/
theorem validateNode_ok {n m : FlowNode} (h : validateNode n = .ok m) :
    m.kind = n.kind ∧ m.id = pyStrip n.id := by
  unfold validateNode at h
  dsimp only at h
  split_ifs at h <;>
    first
      | exact Except.noConfusion h
      | (simp only [Except.ok.injEq] at h; subst h; exact ⟨rfl, rfl⟩)

/-- A validated edge is returned unchanged. -/
theorem validateEdge_ok {e e2 : FlowEdge} (h : validateEdge e = .ok e2) : e2 = e := by
  unfold validateEdge at h
  split_ifs at h
  all_goals
    first
      | exact Except.noConfusion h
      | (simp only [Except.ok.injEq] at h; exact h.symm)


theorem validateEdges_eq {edges edges2 : List FlowEdge}
    (h : edges.mapM validateEdge = .ok edges2) : edges2 = edges := by
  have hf := mapM_ok_forall₂ h
  clear h
  induction hf with
  | nil => rfl
  | cons hxy _ ih => rw [validateEdge_ok hxy, ih]

/-- Node validation preserves the number of trigger nodes. -/
theorem triggerCount_of_validate {xs ys : List FlowNode}
    (h : List.Forall₂ (fun x y => validateNode x = .ok y) xs ys) :
    triggerCount ys = triggerCount xs := by
  induction h with
  | nil => rfl
  | cons hxy _ ih =>
    obtain ⟨hk, -⟩ := validateNode_ok hxy
    simp only [triggerCount, List.filter_cons, hk] at *
    split_ifs <;> simp_all [triggerCount]

/-- Node validation maps the id list to its stripped form. -/
theorem ids_of_validate {xs ys : List FlowNode}
    (h : List.Forall₂ (fun x y => validateNode x = .ok y) xs ys) :
    (ys.map fun n => n.id) = xs.map fun n => pyStrip n.id := by
  induction h with
  | nil => rfl
  | cons hxy _ ih =>
    obtain ⟨-, hid⟩ := validateNode_ok hxy
    simp only [List.map_cons, hid, ih]

/-- C4: a definition is persisted only if it passes every structural check
(version 1, duplicate-free node ids, at least one trigger node, edges
referencing existing ids); a definition violating any check is rejected at
parse time and `admin_create_flow` leaves the store untouched. -/
theorem claim_C4 :
    (∀ d d2 : FlowDefinition, validateDefinition d = .ok d2 →
        d2.version = 1 ∧ (d2.nodes.map fun n => n.id).Nodup ∧ 1 ≤ triggerCount d2.nodes ∧
        ∀ e ∈ d2.edges, e.source ∈ (d2.nodes.map fun n => n.id)
          ∧ e.target ∈ (d2.nodes.map fun n => n.id)) ∧
    (∀ d d2 : FlowDefinition, d.version ≠ 1 → validateDefinition d ≠ .ok d2) ∧
    (∀ d d2 : FlowDefinition, ¬ (d.nodes.map fun n => n.id).Nodup →
        validateDefinition d ≠ .ok d2) ∧
    (∀ d d2 : FlowDefinition, triggerCount d.nodes = 0 → validateDefinition d ≠ .ok d2) ∧
    (∀ (d d2 : FlowDefinition) (nodes2 : List FlowNode),
        d.nodes.mapM validateNode = .ok nodes2 →
        (∃ e ∈ d.edges, e.source ∉ (nodes2.map fun n => n.id)
          ∨ e.target ∉ (nodes2.map fun n => n.id)) →
        validateDefinition d ≠ .ok d2) ∧
    (∀ (pr : FlowDefinition → String) (db : DbState) (p : FlowCreateRaw) (e : String),
        parseFlowCreate p = .error e →
        adminCreateFlow pr db p = (db, .error (.valueError e))) ∧
    (∀ (p : FlowCreateRaw) (e : String),
        ¬(p.slug.length < 1 ∨ 200 < p.slug.length) →
        ¬(p.title.length < 1 ∨ 200 < p.title.length) →
        validateDefinition p.definition = .error e → parseFlowCreate p = .error e) := by
  have main : ∀ d d2 : FlowDefinition, validateDefinition d = .ok d2 →
      ∃ nodes2 edges2, d.nodes.mapM validateNode = .ok nodes2 ∧
        d.edges.mapM validateEdge = .ok edges2 ∧
        d2 = { version := d.version, nodes := nodes2, edges := edges2 } ∧
        d.version = 1 ∧ (nodes2.map fun n => n.id).Nodup ∧ 1 ≤ triggerCount nodes2 ∧
        ∀ e ∈ edges2, e.source ∈ (nodes2.map fun n => n.id)
          ∧ e.target ∈ (nodes2.map fun n => n.id) := by
    intro d d2 h
    unfold validateDefinition at h
    cases hn : d.nodes.mapM validateNode with
    | error e => rw [hn] at h; exact absurd h (by simp)
    | ok nodes2 =>
      rw [hn] at h
      dsimp only at h
      cases he : d.edges.mapM validateEdge with
      | error e => rw [he] at h; exact absurd h (by simp)
      | ok edges2 =>
        rw [he] at h
        dsimp only at h
        obtain ⟨hd, hv, hnodup, ht, hedges⟩ := validateGraph_ok h
        exact ⟨nodes2, edges2, rfl, rfl, hd, hv, hnodup, ht, hedges⟩
  refine ⟨?_, ?_, ?_, ?_, ?_, ?_, ?_⟩
  · intro d d2 h
    obtain ⟨nodes2, edges2, -, -, hd, hv, hnodup, ht, hedges⟩ := main d d2 h
    subst hd
    exact ⟨hv, hnodup, ht, hedges⟩
  · intro d d2 hv h
    obtain ⟨-, -, -, -, -, hv1, -, -, -⟩ := main d d2 h
    exact hv hv1
  · intro d d2 hdup h
    obtain ⟨nodes2, -, hn, -, -, -, hnodup, -, -⟩ := main d d2 h
    have hids := ids_of_validate (mapM_ok_forall₂ hn)
    rw [hids] at hnodup
    have : (d.nodes.map fun n => pyStrip n.id)
        = List.map pyStrip (d.nodes.map fun n => n.id) := by
      rw [List.map_map]; rfl
    rw [this] at hnodup
    exact hdup (List.Nodup.of_map _ hnodup)
  · intro d d2 hzero h
    obtain ⟨nodes2, -, hn, -, -, -, -, ht, -⟩ := main d d2 h
    rw [triggerCount_of_validate (mapM_ok_forall₂ hn), hzero] at ht
    omega
  · intro d d2 nodes2 hn hbad h
    obtain ⟨nodes2b, edges2, hnb, heb, -, -, -, -, hedges⟩ := main d d2 h
    rw [hn] at hnb
    simp only [Except.ok.injEq] at hnb
    subst hnb
    rw [validateEdges_eq heb] at hedges
    obtain ⟨e, hmem, hsrc⟩ := hbad
    rcases hsrc with hsrc | htgt
    · exact hsrc (hedges e hmem).1
    · exact htgt (hedges e hmem).2
  · intro pr db p e h
    simp [adminCreateFlow, h]
  · intro p e hsl hti hdef
    unfold parseFlowCreate
    rw [if_neg hsl, if_neg hti, hdef]

def c4badVersion : FlowDefinition := { version := 2, nodes := [⟨"t", "trigger", "", []⟩] }

def c4noTrigger : FlowDefinition := { version := 1, nodes := [⟨"a", "action", "", []⟩] }

def c4badEdge : FlowDefinition :=
  { version := 1, nodes := [⟨"t", "trigger", "", []⟩], edges := [⟨"t", "ghost"⟩] }

def c4rawBad : FlowCreateRaw := { slug := "wf", title := "W", definition := c4noTrigger }

/-- Witness for C4 at concrete definitions exercising each rejection, plus
the untouched store on a rejected create. -/
theorem claim_C4_witness :
    ((validateDefinition c5defn = .ok c5defn →
        c5defn.version = 1 ∧ (c5defn.nodes.map fun n => n.id).Nodup ∧
        1 ≤ triggerCount c5defn.nodes ∧
        ∀ e ∈ c5defn.edges, e.source ∈ (c5defn.nodes.map fun n => n.id)
          ∧ e.target ∈ (c5defn.nodes.map fun n => n.id)) ∧
      validateDefinition c4badVersion ≠ .ok c4badVersion ∧
      validateDefinition c9dup ≠ .ok c9dup ∧
      validateDefinition c4noTrigger ≠ .ok c4noTrigger ∧
      validateDefinition c4badEdge ≠ .ok c4badEdge) ∧
    adminCreateFlow (fun _ => "") {} c4rawBad
      = ({}, .error (.valueError "flow definition must include at least one trigger node")) := by
  refine ⟨⟨claim_C4.1 c5defn c5defn, ?_, ?_, ?_, ?_⟩, ?_⟩
  · exact claim_C4.2.1 c4badVersion c4badVersion (by decide)
  · exact claim_C4.2.2.1 c9dup c9dup (by decide)
  · exact claim_C4.2.2.2.1 c4noTrigger c4noTrigger (by decide)
  · exact claim_C4.2.2.2.2.1 c4badEdge c4badEdge [⟨"t", "trigger", "", []⟩] rfl
      (by exact ⟨⟨"t", "ghost"⟩, by simp [c4badEdge], Or.inr (by decide)⟩)
  · exact claim_C4.2.2.2.2.2.1 (fun _ => "") {} c4rawBad
      "flow definition must include at least one trigger node" rfl

/-! ### C3 — template resolution -/

/-- The stringification of a substituted match: `""` for `None`, `str(v)`
otherwise. -/
def strOfResolved : Val → String
  | .null => ""
  | v => v.pyStr

/-- C3: a whole-string placeholder returns the referenced value with its
native type; mixed text substitutes the stringification of each match
(`None` becoming `""`); a missing segment or non-map intermediate of a
dotted path resolves to `""`; rendering recurses through lists and dicts
and passes non-string leaves through unchanged. -/
theorem claim_C3 :
    (∀ (env : RefEnv) (inp ctx out : List (String × Val)) (v : Val),
        dictGet inp "a" = some v →
        renderVal env inp ctx out (.str "\x7b\x7binput.a\x7d\x7d") = v) ∧
    (∀ (env : RefEnv) (inp ctx out : List (String × Val)) (v : Val),
        dictGet inp "a" = some v →
        renderVal env inp ctx out (.str "x=\x7b\x7binput.a\x7d\x7d")
          = .str ("x=" ++ strOfResolved v)) ∧
    (∀ (env : RefEnv) (inp ctx out : List (String × Val)),
        dictGet inp "a" = none →
        renderVal env inp ctx out (.str "\x7b\x7binput.a.b\x7d\x7d") = .str "") ∧
    (∀ (env : RefEnv) (inp ctx out : List (String × Val)) (v : Val),
        dictGet inp "a" = some v → v.isDict = false →
        renderVal env inp ctx out (.str "\x7b\x7binput.a.b\x7d\x7d") = .str "") ∧
    (∀ (env : RefEnv) (inp ctx out : List (String × Val)) (xs : List Val),
        renderVal env inp ctx out (.list xs) = .list (xs.map (renderVal env inp ctx out))) ∧
    (∀ (env : RefEnv) (inp ctx out kvs : List (String × Val)),
        renderVal env inp ctx out (.dict kvs)
          = .dict (kvs.map fun p => (p.1, renderVal env inp ctx out p.2))) ∧
    (∀ (env : RefEnv) (inp ctx out : List (String × Val)),
        (∀ n : Int, renderVal env inp ctx out (.int n) = .int n) ∧
        (∀ b : Bool, renderVal env inp ctx out (.bool b) = .bool b) ∧
        renderVal env inp ctx out .null = .null) := by
  refine ⟨?_, ?_, ?_, ?_, ?_, ?_, ?_⟩
  · intro env inp ctx out v hv
    have h1 : renderVal env inp ctx out (.str "\x7b\x7binput.a\x7d\x7d")
        = (match dictGet inp "a" with
           | some w => getPathParts w []
           | none => Val.str "") := rfl
    rw [h1, hv]
    exact rfl
  · intro env inp ctx out v hv
    have h1 : renderVal env inp ctx out (.str "x=\x7b\x7binput.a\x7d\x7d")
        = .str ("x=" ++ renderRepl env inp ctx out "input.a" ++ "") := rfl
    have h2 : renderRepl env inp ctx out "input.a"
        = strOfResolved (resolveRef env inp ctx out "input.a") := by
      unfold renderRepl strOfResolved
      cases resolveRef env inp ctx out "input.a" <;> rfl
    have h3 : resolveRef env inp ctx out "input.a"
        = (match dictGet inp "a" with
           | some w => getPathParts w []
           | none => Val.str "") := rfl
    rw [h1, h2, h3, hv]
    show Val.str ("x=" ++ strOfResolved v ++ "") = Val.str ("x=" ++ strOfResolved v)
    rw [String.append_empty]
  · intro env inp ctx out hv
    have h1 : renderVal env inp ctx out (.str "\x7b\x7binput.a.b\x7d\x7d")
        = (match dictGet inp "a" with
           | some w => getPathParts w ["b"]
           | none => Val.str "") := rfl
    rw [h1, hv]
  · intro env inp ctx out v hv hdict
    have h1 : renderVal env inp ctx out (.str "\x7b\x7binput.a.b\x7d\x7d")
        = (match dictGet inp "a" with
           | some w => getPathParts w ["b"]
           | none => Val.str "") := rfl
    rw [h1, hv]
    cases v with
    | dict kvs => exact absurd hdict (by simp [Val.isDict])
    | null => rfl
    | bool b => rfl
    | int n => rfl
    | str s => rfl
    | list xs => rfl
  · intro env inp ctx out xs
    rw [show renderVal env inp ctx out (.list xs) = .list (renderValList env inp ctx out xs)
      from rfl, renderValList_eq_map]
  · intro env inp ctx out kvs
    rw [renderVal_dict, renderDict, renderValPairs_eq_map]
  · exact fun env inp ctx out => ⟨fun n => rfl, fun b => rfl, rfl⟩

/-- Witness for C3 at concrete scopes: a native int through a whole-string
placeholder, its stringification in mixed text, and the empty-string
fallbacks for a missing and a non-map path. -/
theorem claim_C3_witness :
    renderVal ⟨"", 0, "", ""⟩ [("a", .int 7)] [] [] (.str "\x7b\x7binput.a\x7d\x7d") = .int 7 ∧
    renderVal ⟨"", 0, "", ""⟩ [("a", .int 7)] [] [] (.str "x=\x7b\x7binput.a\x7d\x7d")
      = .str ("x=" ++ strOfResolved (.int 7)) ∧
    renderVal ⟨"", 0, "", ""⟩ [("b", .int 1)] [] [] (.str "\x7b\x7binput.a.b\x7d\x7d") = .str "" ∧
    renderVal ⟨"", 0, "", ""⟩ [("a", .int 7)] [] [] (.str "\x7b\x7binput.a.b\x7d\x7d") = .str "" :=
  ⟨claim_C3.1 ⟨"", 0, "", ""⟩ [("a", .int 7)] [] [] (.int 7) rfl,
   claim_C3.2.1 ⟨"", 0, "", ""⟩ [("a", .int 7)] [] [] (.int 7) rfl,
   claim_C3.2.2.1 ⟨"", 0, "", ""⟩ [("b", .int 1)] [] [] rfl,
   claim_C3.2.2.2.1 ⟨"", 0, "", ""⟩ [("a", .int 7)] [] [] (.int 7) rfl rfl⟩

/-! ### C7 — unique entry slugs -/

theorem find?_range'_least {p : Nat → Bool} :
    ∀ {n s i : Nat}, (List.range' s n).find? p = some i →
      p i = true ∧ s ≤ i ∧ i < s + n ∧ ∀ j, s ≤ j → j < i → p j = false := by
  intro n
  induction n with
  | zero => intro s i h; simp [List.range'] at h
  | succ n ih =>
    intro s i h
    have hr : List.range' s (n + 1) = s :: List.range' (s + 1) n := rfl
    rw [hr, List.find?_cons] at h
    by_cases hp : p s
    · rw [hp] at h
      simp only [Option.some.injEq] at h
      subst h
      exact ⟨hp, le_refl s, by omega, fun j h1 h2 => by omega⟩
    · have hp2 : p s = false := by simpa using hp
      rw [hp2] at h
      dsimp only at h
      obtain ⟨h1, h2, h3, h4⟩ := ih h
      refine ⟨h1, by omega, by omega, fun j hj1 hj2 => ?_⟩
      by_cases hjs : j = s
      · subst hjs; exact Bool.not_eq_true _ ▸ (by simpa using hp)
      · exact h4 j (by omega) hj2

/-- C7: the computed entry slug is the slugified base when it is unused;
otherwise the first unused `slug-i` with `i` counting up from 2 (that
candidate being free and all earlier ones taken); when all 998 numbered
candidates are taken the random six-character suffix is used; and two
successive `create_entry` calls with the same base slug yield the distinct
slugs `foo` and `foo-2`. -/
theorem claim_C7 :
    (∀ (env : RefEnv) (entries : List ContentEntryRow) (ctId : Nat) (base : String),
        entrySlugTaken entries ctId (slugify base) = false →
        ensureUniqueEntrySlug env entries ctId base = slugify base) ∧
    (∀ (env : RefEnv) (entries : List ContentEntryRow) (ctId : Nat) (base : String) (i0 : Nat),
        entrySlugTaken entries ctId (slugify base) = true →
        (List.range' 2 998).find?
            (fun i => !entrySlugTaken entries ctId (slugify base ++ "-" ++ Nat.repr i)) = some i0 →
        ensureUniqueEntrySlug env entries ctId base = slugify base ++ "-" ++ Nat.repr i0 ∧
        entrySlugTaken entries ctId (slugify base ++ "-" ++ Nat.repr i0) = false ∧
        2 ≤ i0 ∧ i0 < 1000 ∧
        ∀ j, 2 ≤ j → j < i0 →
          entrySlugTaken entries ctId (slugify base ++ "-" ++ Nat.repr j) = true) ∧
    (∀ (env : RefEnv) (entries : List ContentEntryRow) (ctId : Nat) (base : String),
        entrySlugTaken entries ctId (slugify base) = true →
        (List.range' 2 998).find?
            (fun i => !entrySlugTaken entries ctId (slugify base ++ "-" ++ Nat.repr i)) = none →
        ensureUniqueEntrySlug env entries ctId base = slugify base ++ "-" ++ env.random6) := by
  refine ⟨?_, ?_, ?_⟩
  · intro env entries ctId base h
    simp only [ensureUniqueEntrySlug]
    rw [h]
    rfl
  · intro env entries ctId base i0 htaken hfind
    obtain ⟨hp, h2, h3, hleast⟩ := find?_range'_least hfind
    refine ⟨?_, by simpa using hp, h2, by omega, fun j hj1 hj2 => ?_⟩
    · simp only [ensureUniqueEntrySlug]
      rw [htaken]
      simp only [Bool.not_true, Bool.false_eq_true, if_false, hfind]
    · have := hleast j hj1 hj2
      simpa using this
  · intro env entries ctId base htaken hfind
    simp only [ensureUniqueEntrySlug]
    rw [htaken]
    simp only [Bool.not_true, Bool.false_eq_true, if_false, hfind]

def c7env : RefEnv := ⟨"NOW", 0, "u", "abc123"⟩

def c7db0 : DbState := { contentTypes := [⟨1, "post"⟩] }

def c7db1 : DbState :=
  { contentTypes := [⟨1, "post"⟩],
    entries := [⟨1, 1, "Foo", "foo", "draft", 0, .dict [], none⟩],
    nextEntryId := 2 }

def c7db2 : DbState :=
  { contentTypes := [⟨1, "post"⟩],
    entries := [⟨1, 1, "Foo", "foo", "draft", 0, .dict [], none⟩,
                ⟨2, 1, "Foo", "foo-2", "draft", 0, .dict [], none⟩],
    nextEntryId := 3 }

def c7node : FlowNode :=
  ⟨"c1", "action", "",
   [("operation", .str "create_entry"), ("content_type_slug", .str "post"),
    ("title", .str "Foo")]⟩

/-- Witness for C7: the two successive concrete `create_entry` executions
against the same content type produce entries slugged `foo` then `foo-2`,
and the general clauses instantiate at that state. -/
theorem claim_C7_witness :
    executeAction c7env c7db0 c7node [] [] []
      = .ok (c7db1, [], ⟨"c1", "c1", "create_entry", "ok",
          "Created entry \x27foo\x27 in \x27post\x27", some 1⟩) ∧
    executeAction c7env c7db1 c7node [] [] []
      = .ok (c7db2, [], ⟨"c1", "c1", "create_entry", "ok",
          "Created entry \x27foo-2\x27 in \x27post\x27", some 2⟩) ∧
    ensureUniqueEntrySlug c7env c7db0.entries 1 "Foo" = "foo" ∧
    ensureUniqueEntrySlug c7env c7db1.entries 1 "Foo" = "foo-2" := by
  refine ⟨rfl, rfl, ?_, ?_⟩
  · exact claim_C7.1 c7env c7db0.entries 1 "Foo" rfl
  · exact (claim_C7.2.1 c7env c7db1.entries 1 "Foo" 2 rfl rfl).1

/-! ### C1 — run persistence is all-or-nothing and site-dependent -/

/-- Action handlers never touch the run, workflow or content-type tables. -/
theorem executeAction_preserves {env : RefEnv} {db : DbState} {node : FlowNode}
    {inp ctx out : List (String × Val)} {db2 : DbState} {out2 : List (String × Val)} {st : Step}
    (h : executeAction env db node inp ctx out = .ok (db2, out2, st)) :
    db2.runs = db.runs ∧ db2.workflows = db.workflows ∧
      db2.contentTypes = db.contentTypes ∧ db2.nextRunId = db.nextRunId := by
  unfold executeAction at h
  dsimp only at h
  repeat' split at h
  all_goals
    first
      | exact Except.noConfusion h
      | (simp only [Except.ok.injEq, Prod.mk.injEq] at h
         obtain ⟨hdb, -, -⟩ := h
         subst hdb
         exact ⟨rfl, rfl, rfl, rfl⟩)

/-- The BFS loop never touches the run, workflow or content-type tables. -/
theorem bfsLoopAux_preserves {nodes : List FlowNode} {edges : List FlowEdge} {env : RefEnv}
    {inp ctx : List (String × Val)} :
    ∀ {fuel : Nat} {db : DbState} {steps : List Step} {out : List (String × Val)}
      {queue visited : List String} {guard : Nat} {db2 : DbState}
      {r : Except FlowErr (List Step × List (String × Val))},
      bfsLoopAux nodes edges env inp ctx fuel db steps out queue visited guard = (db2, r) →
      db2.runs = db.runs ∧ db2.workflows = db.workflows ∧
        db2.contentTypes = db.contentTypes ∧ db2.nextRunId = db.nextRunId := by
  intro fuel
  induction fuel with
  | zero =>
    intro db steps out queue visited guard db2 r h
    simp only [bfsLoopAux, Prod.mk.injEq] at h
    obtain ⟨hdb, -⟩ := h
    subst hdb
    exact ⟨rfl, rfl, rfl, rfl⟩
  | succ fuel ih =>
    intro db steps out queue visited guard db2 r h
    rw [bfsLoopAux.eq_def] at h
    match queue, h with
    | [], h =>
      simp only [Prod.mk.injEq] at h
      obtain ⟨hdb, -⟩ := h
      subst hdb
      exact ⟨rfl, rfl, rfl, rfl⟩
    | nodeId :: rest, h =>
      dsimp only at h
      by_cases hvv : visited.contains nodeId
      · rw [if_pos hvv] at h
        exact ih h
      · rw [if_neg hvv] at h
        cases hn : nodeLookup nodes nodeId with
        | none => rw [hn] at h; dsimp only at h; exact ih h
        | some node =>
          rw [hn] at h
          dsimp only at h
          cases hex : (if node.kind == "action"
              then (executeAction env db node inp ctx out).map (fun r => (r.1, r.2.1, some r.2.2))
              else .ok (db, out, none)) with
          | error e =>
            rw [hex] at h
            simp only [Prod.mk.injEq] at h
            obtain ⟨hdb, -⟩ := h
            subst hdb
            exact ⟨rfl, rfl, rfl, rfl⟩
          | ok res =>
            obtain ⟨dbm, outm, stepOpt⟩ := res
            have hpres : dbm.runs = db.runs ∧ dbm.workflows = db.workflows ∧
                dbm.contentTypes = db.contentTypes ∧ dbm.nextRunId = db.nextRunId := by
              by_cases hk : node.kind == "action"
              · rw [if_pos hk] at hex
                cases hea : executeAction env db node inp ctx out with
                | error e => rw [hea] at hex; exact Except.noConfusion hex
                | ok r2 =>
                  obtain ⟨dbr, outr, str⟩ := r2
                  rw [hea] at hex
                  simp only [Except.map, Except.ok.injEq, Prod.mk.injEq] at hex
                  obtain ⟨h1, -, -⟩ := hex
                  subst h1
                  exact executeAction_preserves hea
              · rw [if_neg hk] at hex
                simp only [Except.ok.injEq, Prod.mk.injEq] at hex
                obtain ⟨h1, -, -⟩ := hex
                subst h1
                exact ⟨rfl, rfl, rfl, rfl⟩
            rw [hex] at h
            dsimp only at h
            by_cases hg : 1000 < guard + 1
            · rw [if_pos hg] at h
              simp only [Prod.mk.injEq] at h
              obtain ⟨hdb, -⟩ := h
              subst hdb
              exact hpres
            · rw [if_neg hg] at h
              obtain ⟨p1, p2, p3, p4⟩ := ih h
              obtain ⟨q1, q2, q3, q4⟩ := hpres
              exact ⟨p1.trans q1, p2.trans q2, p3.trans q3, p4.trans q4⟩

/-- `_execute_definition` never touches the run, workflow or content-type
tables, whatever its outcome. -/
theorem executeDefinition_preserves {env : RefEnv} {defn : FlowDefinition} {event : String}
    {inp ctx : List (String × Val)} {db db2 : DbState}
    {r : Except FlowErr (List Step × List (String × Val))}
    (h : executeDefinition env defn event inp ctx db = (db2, r)) :
    db2.runs = db.runs ∧ db2.workflows = db.workflows ∧
      db2.contentTypes = db.contentTypes ∧ db2.nextRunId = db.nextRunId := by
  unfold executeDefinition at h
  dsimp only at h
  by_cases ht : matchedTriggerIds defn.nodes event = []
  · rw [if_pos ht] at h
    simp only [Prod.mk.injEq] at h
    obtain ⟨hdb, -⟩ := h
    subst hdb
    exact ⟨rfl, rfl, rfl, rfl⟩
  · rw [if_neg ht] at h
    exact bfsLoopAux_preserves h

/-- C1: run persistence is all-or-nothing and site-dependent. A test run
(`persist_run=False`) never adds a `WorkflowRun` row, whatever the outcome.
A persisted run appends exactly one row: on success a `success` row
committed in the same transaction as the staged action side effects; on
failure the staged side effects are rolled back and a `failed` row with
non-empty error text is committed in a fresh transaction. -/
theorem claim_C1 (pm : String → Option Val) (env : RefEnv) (s : Session) (row : WorkflowRow)
    (payload : FlowTriggerIn) (hclean : s.staged = s.committed) :
    ((runFlow pm env s row payload false).1.committed.runs = s.committed.runs ∧
     (runFlow pm env s row payload false).1.staged.runs = s.committed.runs) ∧
    (∀ defn, loadFlowDefinition pm row.definitionJson = .ok defn →
      (∀ db2 steps output,
          executeDefinition env defn (chooseEvent payload.event row.triggerEvent)
              payload.input payload.context s.staged = (db2, .ok (steps, output)) →
          (runFlow pm env s row payload true).1.committed
              = (insertRun db2 row.id "success" (.dict payload.input) (.dict output) none).1 ∧
          (runFlow pm env s row payload true).1.committed.runs
              = s.committed.runs
                ++ [⟨db2.nextRunId, row.id, "success", .dict payload.input, .dict output, none⟩] ∧
          (runFlow pm env s row payload true).1.committed.options = db2.options ∧
          (runFlow pm env s row payload true).1.committed.entries = db2.entries) ∧
      (∀ db2 exc,
          executeDefinition env defn (chooseEvent payload.event row.triggerEvent)
              payload.input payload.context s.staged = (db2, .error exc) →
          ∃ t, t ≠ "" ∧
            (runFlow pm env s row payload true).1.committed
                = (insertRun s.committed row.id "failed" (.dict payload.input)
                    (.dict []) (some t)).1 ∧
            (runFlow pm env s row payload true).1.committed.runs
                = s.committed.runs
                  ++ [⟨s.committed.nextRunId, row.id, "failed", .dict payload.input,
                       .dict [], some t⟩] ∧
            (runFlow pm env s row payload true).1.committed.options = s.committed.options ∧
            (runFlow pm env s row payload true).1.committed.entries = s.committed.entries)) := by
  constructor
  · cases hload : loadFlowDefinition pm row.definitionJson with
    | error e =>
      unfold runFlow
      rw [hload]
      refine ⟨rfl, ?_⟩
      show s.staged.runs = s.committed.runs
      rw [hclean]
    | ok defn =>
      cases hexec : executeDefinition env defn (chooseEvent payload.event row.triggerEvent)
          payload.input payload.context s.staged with
      | mk db2 r =>
        obtain ⟨hruns, -, -, -⟩ := executeDefinition_preserves hexec
        cases r with
        | ok so =>
          obtain ⟨steps, output⟩ := so
          unfold runFlow
          rw [hload]
          dsimp only
          rw [hexec]
          dsimp only
          rw [if_neg Bool.false_ne_true]
          dsimp only [Session.commit]
          rw [hruns, hclean]
          exact ⟨rfl, rfl⟩
        | error exc =>
          unfold runFlow
          rw [hload]
          dsimp only
          rw [hexec]
          dsimp only
          rw [if_neg Bool.false_ne_true]
          dsimp only [Session.rollback]
          exact ⟨rfl, rfl⟩
  · intro defn hload
    constructor
    · intro db2 steps output hexec
      obtain ⟨hruns, -, -, -⟩ := executeDefinition_preserves hexec
      unfold runFlow
      rw [hload]
      dsimp only
      rw [hexec]
      dsimp only
      rw [if_pos rfl]
      dsimp only [Session.commit, insertRun]
      rw [hruns, hclean]
      exact ⟨rfl, rfl, rfl, rfl⟩
    · intro db2 exc hexec
      refine ⟨if exc.text = "" then "Flow execution failed" else exc.text, ?_, ?_⟩
      · split_ifs with ht
        · simp
        · exact ht
      · unfold runFlow
        rw [hload]
        dsimp only
        rw [hexec]
        dsimp only
        rw [if_pos rfl]
        dsimp only [Session.commit, insertRun]
        exact ⟨rfl, rfl, rfl, rfl⟩

def c1okDef : String := "okdef"

def c1failDef : String := "faildef"

/-- A tiny parser model: `okdef` parses to a one-trigger definition,
`faildef` to a definition whose only trigger requires event `go`. -/
def c1pm : String → Option Val := fun s =>
  if s = c1okDef then
    some (.dict [("nodes", .list [.dict [("id", .str "t"), ("kind", .str "trigger")]])])
  else if s = c1failDef then
    some (.dict [("nodes", .list [.dict [("id", .str "t"), ("kind", .str "trigger"),
      ("config", .dict [("event", .str "go")])]])])
  else none

def c1rowOk : WorkflowRow :=
  { id := 7, slug := "wf", title := "W", status := "active", triggerEvent := "manual",
    definitionJson := some c1okDef }

def c1rowFail : WorkflowRow :=
  { id := 7, slug := "wf", title := "W", status := "active", triggerEvent := "manual",
    definitionJson := some c1failDef }

def c1db : DbState := { nextRunId := 4 }

def c1sess : Session := ⟨c1db, c1db⟩

/-- Witness for C1: a concrete test run adds no run row; a concrete
successful public run appends one `success` row; a concrete failing public
run (no trigger matches) appends one `failed` row with non-empty error. -/
theorem claim_C1_witness :
    ((runFlow c1pm ⟨"", 0, "", ""⟩ c1sess c1rowOk ({} : FlowTriggerIn) false).1.committed.runs
        = c1sess.committed.runs ∧
     (runFlow c1pm ⟨"", 0, "", ""⟩ c1sess c1rowOk ({} : FlowTriggerIn) false).1.staged.runs
        = c1sess.committed.runs) ∧
    ((runFlow c1pm ⟨"", 0, "", ""⟩ c1sess c1rowOk ({} : FlowTriggerIn) true).1.committed
        = (insertRun c1db 7 "success" (.dict []) (.dict []) none).1 ∧
     (runFlow c1pm ⟨"", 0, "", ""⟩ c1sess c1rowOk ({} : FlowTriggerIn) true).1.committed.runs
        = c1sess.committed.runs ++ [⟨4, 7, "success", .dict [], .dict [], none⟩] ∧
     (runFlow c1pm ⟨"", 0, "", ""⟩ c1sess c1rowOk ({} : FlowTriggerIn) true).1.committed.options = c1db.options ∧
     (runFlow c1pm ⟨"", 0, "", ""⟩ c1sess c1rowOk ({} : FlowTriggerIn) true).1.committed.entries = c1db.entries) ∧
    (∃ t, t ≠ "" ∧
      (runFlow c1pm ⟨"", 0, "", ""⟩ c1sess c1rowFail ({} : FlowTriggerIn) true).1.committed
          = (insertRun c1db 7 "failed" (.dict []) (.dict []) (some t)).1 ∧
      (runFlow c1pm ⟨"", 0, "", ""⟩ c1sess c1rowFail ({} : FlowTriggerIn) true).1.committed.runs
          = c1sess.committed.runs ++ [⟨4, 7, "failed", .dict [], .dict [], some t⟩] ∧
      (runFlow c1pm ⟨"", 0, "", ""⟩ c1sess c1rowFail ({} : FlowTriggerIn) true).1.committed.options
          = c1db.options ∧
      (runFlow c1pm ⟨"", 0, "", ""⟩ c1sess c1rowFail ({} : FlowTriggerIn) true).1.committed.entries
          = c1db.entries) :=
  ⟨(claim_C1 c1pm ⟨"", 0, "", ""⟩ c1sess c1rowOk ({} : FlowTriggerIn) rfl).1,
   ((claim_C1 c1pm ⟨"", 0, "", ""⟩ c1sess c1rowOk ({} : FlowTriggerIn) rfl).2
      (FlowDefinition.mk 1 [⟨"t", "trigger", "", []⟩] []) rfl).1 c1db [] [] rfl,
   ((claim_C1 c1pm ⟨"", 0, "", ""⟩ c1sess c1rowFail ({} : FlowTriggerIn) rfl).2
      (FlowDefinition.mk 1 [⟨"t", "trigger", "", [("event", .str "go")]⟩] []) rfl).2 c1db
      (.badRequest "No trigger node matched event \x27manual\x27") rfl⟩

/-! ### C2 — each node executes at most once, in first-arrival order -/

/-- The step returned by an action handler carries the node's id. -/
theorem executeAction_step_nodeId {env : RefEnv} {db : DbState} {node : FlowNode}
    {inp ctx out : List (String × Val)} {db2 : DbState} {out2 : List (String × Val)} {st : Step}
    (h : executeAction env db node inp ctx out = .ok (db2, out2, st)) :
    st.nodeId = node.id := by
  unfold executeAction at h
  dsimp only at h
  repeat' split at h
  all_goals
    first
      | exact Except.noConfusion h
      | (simp only [Except.ok.injEq, Prod.mk.injEq] at h
         obtain ⟨-, -, hst⟩ := h
         subst hst
         rfl)

/-- A node found in the index carries the looked-up id. -/
theorem nodeLookup_id {nodes : List FlowNode} {nodeId : String} {node : FlowNode}
    (h : nodeLookup nodes nodeId = some node) : node.id = nodeId := by
  unfold nodeLookup at h
  have := List.find?_some h
  simpa using this

/-- Invariant of the BFS loop: if the already-produced steps have
duplicate-free node ids all of which are already visited, the final step
log still has duplicate-free node ids — each node's action executes at most
once. -/
theorem bfsLoopAux_nodup {nodes : List FlowNode} {edges : List FlowEdge} {env : RefEnv}
    {inp ctx : List (String × Val)} :
    ∀ {fuel : Nat} {db : DbState} {steps : List Step} {out : List (String × Val)}
      {queue visited : List String} {guard : Nat} {db2 : DbState}
      {steps2 : List Step} {out2 : List (String × Val)},
      bfsLoopAux nodes edges env inp ctx fuel db steps out queue visited guard
          = (db2, .ok (steps2, out2)) →
      (steps.map (fun st => st.nodeId)).Nodup →
      (∀ st ∈ steps, st.nodeId ∈ visited) →
      (steps2.map (fun st => st.nodeId)).Nodup := by
  intro fuel
  induction fuel with
  | zero =>
    intro db steps out queue visited guard db2 steps2 out2 h _ _
    simp only [bfsLoopAux, Prod.mk.injEq] at h
    exact absurd h.2 (by simp)
  | succ fuel ih =>
    intro db steps out queue visited guard db2 steps2 out2 h hnd hvis
    rw [bfsLoopAux.eq_def] at h
    match queue, h with
    | [], h =>
      simp only [Prod.mk.injEq, Except.ok.injEq, Prod.mk.injEq] at h
      obtain ⟨-, hs, -⟩ := h
      subst hs
      exact hnd
    | nodeId :: rest, h =>
      dsimp only at h
      by_cases hvv : visited.contains nodeId
      · rw [if_pos hvv] at h
        exact ih h hnd hvis
      · rw [if_neg hvv] at h
        have hnotmem : nodeId ∉ visited := by
          intro hmem
          exact hvv (by simpa using hmem)
        cases hn : nodeLookup nodes nodeId with
        | none =>
          rw [hn] at h
          dsimp only at h
          exact ih h hnd (fun st hst => List.mem_cons_of_mem _ (hvis st hst))
        | some node =>
          rw [hn] at h
          dsimp only at h
          cases hex : (if node.kind == "action"
              then (executeAction env db node inp ctx out).map (fun r => (r.1, r.2.1, some r.2.2))
              else .ok (db, out, none)) with
          | error e =>
            rw [hex] at h
            simp only [Prod.mk.injEq] at h
            exact absurd h.2 (by simp)
          | ok res =>
            obtain ⟨dbm, outm, stepOpt⟩ := res
            have hstep : ∀ st, stepOpt = some st → st.nodeId = nodeId := by
              intro st hso
              subst hso
              by_cases hk : node.kind == "action"
              · rw [if_pos hk] at hex
                cases hea : executeAction env db node inp ctx out with
                | error e => rw [hea] at hex; exact Except.noConfusion hex
                | ok r2 =>
                  obtain ⟨dbr, outr, str⟩ := r2
                  rw [hea] at hex
                  simp only [Except.map, Except.ok.injEq, Prod.mk.injEq,
                    Option.some.injEq] at hex
                  obtain ⟨-, -, hso2⟩ := hex
                  rw [← hso2, executeAction_step_nodeId hea]
                  exact nodeLookup_id hn
              · rw [if_neg hk] at hex
                simp only [Except.ok.injEq, Prod.mk.injEq] at hex
                exact absurd hex.2.2 (by simp)
            rw [hex] at h
            dsimp only at h
            by_cases hg : 1000 < guard + 1
            · rw [if_pos hg] at h
              simp only [Prod.mk.injEq] at h
              exact absurd h.2 (by simp)
            · rw [if_neg hg] at h
              cases stepOpt with
              | none =>
                exact ih h hnd (fun st hst => List.mem_cons_of_mem _ (hvis st hst))
              | some st =>
                have hid := hstep st rfl
                refine ih h ?_ ?_
                · simp only [List.map_append, List.map_cons, List.map_nil]
                  rw [List.nodup_append]
                  refine ⟨hnd, by simp, ?_⟩
                  intro x hx hx2
                  simp only [List.mem_singleton] at hx2
                  subst hx2
                  rw [hid] at hx
                  obtain ⟨st0, hst0, hst0id⟩ := List.mem_map.mp hx
                  exact hnotmem (hst0id ▸ hvis st0 hst0)
                · intro st2 hst2
                  rcases List.mem_append.mp hst2 with hmem | hmem
                  · exact List.mem_cons_of_mem _ (hvis st2 hmem)
                  · simp only [List.mem_singleton] at hmem
                    subst hmem
                    rw [hid]
                    exact List.mem_cons_self _ _

def c2env : RefEnv := ⟨"", 0, "", ""⟩

/-- Triggers `T → A`, `T → B` with an extra edge `A → B`: `B` is reachable
by two paths. -/
def c2defn : FlowDefinition :=
  { version := 1,
    nodes := [⟨"T", "trigger", "", []⟩, ⟨"A", "action", "", [("operation", .str "noop")]⟩,
              ⟨"B", "action", "", [("operation", .str "noop")]⟩],
    edges := [⟨"T", "A"⟩, ⟨"T", "B"⟩, ⟨"A", "B"⟩] }

/-- Same nodes with edge `B → A`: a topological order would need `B`
before `A`, but first arrival runs `A` first. -/
def c2defnBA : FlowDefinition :=
  { version := 1,
    nodes := [⟨"T", "trigger", "", []⟩, ⟨"A", "action", "", [("operation", .str "noop")]⟩,
              ⟨"B", "action", "", [("operation", .str "noop")]⟩],
    edges := [⟨"T", "A"⟩, ⟨"T", "B"⟩, ⟨"B", "A"⟩] }

/-- C2: the engine visits each node at most once — the executed step log
never repeats a node id, for every definition, event, input and context;
on the two-path graph `T→A, T→B, A→B` node `B` executes exactly once; and
the order is first-arrival (with edge `B→A` present, `A` still runs first,
so the order is not a topological sort). -/
theorem claim_C2 :
    (∀ (env : RefEnv) (defn : FlowDefinition) (event : String)
        (inp ctx : List (String × Val)) (db db2 : DbState)
        (steps : List Step) (out : List (String × Val)),
        executeDefinition env defn event inp ctx db = (db2, .ok (steps, out)) →
        (steps.map (fun st => st.nodeId)).Nodup) ∧
    (executeDefinition c2env c2defn "manual" [] [] {}).2.map
        (fun r => r.1.map (fun st => st.nodeId)) = .ok ["A", "B"] ∧
    ((executeDefinition c2env c2defn "manual" [] [] {}).2.map
        (fun r => (r.1.map (fun st => st.nodeId)).count "B")) = .ok 1 ∧
    (executeDefinition c2env c2defnBA "manual" [] [] {}).2.map
        (fun r => r.1.map (fun st => st.nodeId)) = .ok ["A", "B"] := by
  refine ⟨?_, rfl, rfl, rfl⟩
  intro env defn event inp ctx db db2 steps out h
  unfold executeDefinition at h
  dsimp only at h
  by_cases ht : matchedTriggerIds defn.nodes event = []
  · rw [if_pos ht] at h
    simp only [Prod.mk.injEq] at h
    exact absurd h.2 (by simp)
  · rw [if_neg ht] at h
    exact bfsLoopAux_nodup h (by simp) (by simp)

/-- Witness for C2: the general at-most-once theorem applied to the
concrete two-path graph. -/
theorem claim_C2_witness :
    (([⟨"A", "A", "noop", "ok", "No-op", none⟩,
       (⟨"B", "B", "noop", "ok", "No-op", none⟩ : Step)].map (fun st => st.nodeId)).Nodup) :=
  claim_C2.1 c2env c2defn "manual" [] [] {} {}
    [⟨"A", "A", "noop", "ok", "No-op", none⟩, ⟨"B", "B", "noop", "ok", "No-op", none⟩] [] rfl

/-! ### C8 — the 1000-visit cap is off by one

The engine raises "graph too deep or cyclic" only after the 1001st visited
node has already been visited and executed, so "visits at most 1000 nodes"
fails. The family `chainDef n` of linear flows (one trigger followed by
`n - 1` `upsert_option` actions with pairwise distinct keys) makes the
visit count observable in the staged store. -/

/-- A 32-character alphabet for two-character node ids. -/
def chainAlpha : List Char := "abcdefghijklmnopqrstuvwxyz012345".data

/-- The `i`-th alphabet character. -/
def alphaChar (i : Nat) : Char := chainAlpha.getD i 'a'

theorem alphaChar_inj_fin : ∀ i j : Fin 32, alphaChar i.1 = alphaChar j.1 → i = j := by decide

theorem alphaChar_props : ∀ i : Fin 32,
    ¬(alphaChar i.1).isWhitespace ∧ alphaChar i.1 ≠ '\x7b' := by decide

/-- The two-character id of chain node `i` (injective below `32 * 32`). -/
def chainId (i : Nat) : String := String.mk [alphaChar (i / 32), alphaChar (i % 32)]

theorem chainId_inj {i j : Nat} (hi : i < 1024) (hj : j < 1024)
    (h : chainId i = chainId j) : i = j := by
  unfold chainId at h
  have h0 : [alphaChar (i / 32), alphaChar (i % 32)]
      = [alphaChar (j / 32), alphaChar (j % 32)] := by injection h
  simp only [List.cons.injEq, and_true] at h0
  obtain ⟨h1, h2⟩ := h0
  have hd : (⟨i / 32, by omega⟩ : Fin 32) = ⟨j / 32, by omega⟩ :=
    alphaChar_inj_fin ⟨i / 32, by omega⟩ ⟨j / 32, by omega⟩ h1
  have hm : (⟨i % 32, by omega⟩ : Fin 32) = ⟨j % 32, by omega⟩ :=
    alphaChar_inj_fin ⟨i % 32, by omega⟩ ⟨j % 32, by omega⟩ h2
  have hd2 : i / 32 = j / 32 := congrArg Fin.val hd
  have hm2 : i % 32 = j % 32 := congrArg Fin.val hm
  omega

theorem chainId_chars {i : Nat} (hi : i < 1024) :
    ∀ c ∈ (chainId i).data, ¬c.isWhitespace ∧ c ≠ '\x7b' := by
  intro c hc
  unfold chainId at hc
  simp only [List.mem_cons, List.not_mem_nil, or_false] at hc
  rcases hc with rfl | rfl
  · exact alphaChar_props ⟨i / 32, by omega⟩
  · exact alphaChar_props ⟨i % 32, by omega⟩

theorem chainId_ne_empty (i : Nat) : chainId i ≠ "" := by
  unfold chainId
  intro h
  simpa using congrArg (fun s => s.data.length) h

/-- A string containing no opening brace is scanned to no matches at all. -/
theorem scanTemplatesAux_no_brace :
    ∀ (fuel : Nat) (l : List Char) (pos : Nat), '\x7b' ∉ l →
      scanTemplatesAux fuel l pos = [] := by
  intro fuel
  induction fuel with
  | zero => intro l pos h; rfl
  | succ fuel ih =>
    intro l pos h
    match l with
    | [] => rfl
    | c :: rest =>
      have hm : matchTemplateAt (c :: rest) = none := by
        unfold matchTemplateAt
        rw [if_neg]
        intro htake
        have : '\x7b' ∈ c :: rest := by
          have : '\x7b' ∈ (c :: rest).take 2 := by rw [htake]; simp
          exact List.mem_of_mem_take this
        exact h this
      rw [scanTemplatesAux, hm]
      exact ih rest (pos + 1) (fun hmem => h (List.mem_cons_of_mem _ hmem))

/-- Rendering a brace-free string leaves it untouched. -/
theorem renderString_no_brace (env : RefEnv) (inp ctx out : List (String × Val))
    {s : String} (h : '\x7b' ∉ s.data) :
    renderString env inp ctx out s = .str s := by
  unfold renderString scanTemplates
  rw [scanTemplatesAux_no_brace _ _ _ h]

/-- Stripping a string with no whitespace characters is the identity. -/
theorem pyStrip_eq_self {s : String} (h : ∀ c ∈ s.data, ¬c.isWhitespace) :
    pyStrip s = s := by
  unfold pyStrip
  have h1 : s.data.dropWhile Char.isWhitespace = s.data := by
    cases hs : s.data with
    | nil => rfl
    | cons c rest =>
      rw [List.dropWhile_cons, if_neg]
      simp only [Bool.not_eq_true]
      have := h c (by rw [hs]; exact List.mem_cons_self _ _)
      simpa using this
  rw [h1]
  have h2 : s.data.reverse.dropWhile Char.isWhitespace = s.data.reverse := by
    cases hs : s.data.reverse with
    | nil => rfl
    | cons c rest =>
      rw [List.dropWhile_cons, if_neg]
      have hc : c ∈ s.data := by
        rw [← List.mem_reverse, hs]
        exact List.mem_cons_self _ _
      have := h c hc
      simpa using this
  rw [h2, List.reverse_reverse]

/-- Node `i` of the chain flow: a catch-all trigger at 0, an
`upsert_option` action (with its own id as key) elsewhere. -/
def chainNode (i : Nat) : FlowNode :=
  if i = 0 then ⟨chainId 0, "trigger", "", []⟩
  else ⟨chainId i, "action", "",
    [("operation", .str "upsert_option"), ("key", .str (chainId i)), ("value", .int 1)]⟩

def chainNodes (n : Nat) : List FlowNode := (List.range n).map chainNode

def chainEdges (n : Nat) : List FlowEdge :=
  (List.range (n - 1)).map (fun i => ⟨chainId i, chainId (i + 1)⟩)

/-- The linear flow `0 → 1 → ⋯ → n-1`. -/
def chainDef (n : Nat) : FlowDefinition :=
  { version := 1, nodes := chainNodes n, edges := chainEdges n }

/-- The step produced by chain action `i`. -/
def chainStep (i : Nat) : Step :=
  ⟨chainId i, chainId i, "upsert_option", "ok",
   "Created option \x27" ++ chainId i ++ "\x27", none⟩

/-- Options staged after visiting chain nodes `0 … k-1`. -/
def optsK (k : Nat) : List OptionRow :=
  (List.range' 1 (k - 1)).map (fun i => ⟨chainId i, .int 1⟩)

def dbK (k : Nat) : DbState := { options := optsK k }

def stepsK (k : Nat) : List Step := (List.range' 1 (k - 1)).map chainStep

def visitedK (k : Nat) : List String := (List.range k).reverse.map chainId

theorem chainNode_id (i : Nat) : (chainNode i).id = chainId i := by
  unfold chainNode
  split_ifs with h
  · rw [h]
  · rfl

theorem chain_triggers {n : Nat} (hn : 1 ≤ n) :
    matchedTriggerIds (chainNodes n) "manual" = [chainId 0] := by
  unfold matchedTriggerIds chainNodes
  rw [List.filter_map]
  obtain ⟨m, rfl⟩ : ∃ m, n = m + 1 := ⟨n - 1, by omega⟩
  rw [List.range_succ_eq_map, List.filter_cons]
  have h0 : (Function.comp
      (fun n => n.kind == "trigger" &&
        (configuredEvent n == "" || configuredEvent n == "*" || configuredEvent n == "manual"))
      chainNode) 0 = true := rfl
  rw [h0]
  have hrest : ((List.range m).map Nat.succ).filter (Function.comp
      (fun n => n.kind == "trigger" &&
        (configuredEvent n == "" || configuredEvent n == "*" || configuredEvent n == "manual"))
      chainNode) = [] := by
    rw [List.filter_eq_nil_iff]
    intro a ha
    obtain ⟨j, -, rfl⟩ := List.mem_map.mp ha
    simp only [Function.comp_apply]
    unfold chainNode
    rw [if_neg (by omega)]
    simp
  rw [hrest]
  rfl

theorem find?_chainNode {l : List Nat} {k : Nat} (hb : ∀ i ∈ l, i < 1024) (hk : k < 1024)
    (hmem : k ∈ l) :
    (l.map chainNode).find? (fun nd => nd.id == chainId k) = some (chainNode k) := by
  induction l with
  | nil => exact absurd hmem (by simp)
  | cons i rest ih =>
    rw [List.map_cons, List.find?_cons]
    by_cases hik : i = k
    · subst hik
      have hbeq : ((chainNode i).id == chainId i) = true := by simp [chainNode_id]
      rw [hbeq]
    · have hbeq : ((chainNode i).id == chainId k) = false := by
        simp only [chainNode_id, beq_eq_false_iff_ne, ne_eq]
        intro hcontra
        exact hik (chainId_inj (hb i (List.mem_cons_self _ _)) hk hcontra)
      rw [hbeq]
      exact ih (fun x hx => hb x (List.mem_cons_of_mem _ hx))
        (List.mem_of_ne_of_mem (fun hc => hik hc.symm) hmem)

theorem chain_nodeLookup {n k : Nat} (hn : n ≤ 1024) (hk : k < n) :
    nodeLookup (chainNodes n) (chainId k) = some (chainNode k) := by
  unfold nodeLookup chainNodes
  rw [← List.map_reverse]
  exact find?_chainNode (fun i hi => by
      have := List.mem_range.mp (List.mem_reverse.mp hi)
      omega)
    (by omega) (List.mem_reverse.mpr (List.mem_range.mpr hk))

theorem chain_filter_range {m k : Nat} (hm : m ≤ 1023) (hk : k < 1024) :
    (List.range m).filter (fun i => chainId i == chainId k)
      = if k < m then [k] else [] := by
  induction m with
  | zero => simp
  | succ m ih =>
    rw [List.range_succ, List.filter_append]
    rw [ih (by omega)]
    by_cases hkm : k < m
    · rw [if_pos hkm, if_pos (by omega)]
      have : (List.filter (fun i => chainId i == chainId k) [m]) = [] := by
        simp only [List.filter_cons, List.filter_nil]
        rw [if_neg]
        simp only [beq_iff_eq]
        intro hc
        have := chainId_inj (by omega) hk hc
        omega
      rw [this, List.append_nil]
    · rw [if_neg hkm]
      by_cases hkm2 : k = m
      · subst hkm2
        rw [if_pos (by omega)]
        simp
      · rw [if_neg (by omega)]
        simp only [List.nil_append, List.filter_cons, List.filter_nil]
        rw [if_neg]
        simp only [beq_iff_eq]
        intro hc
        exact hkm2 (chainId_inj (by omega) hk hc).symm

theorem chain_outTargets {n k : Nat} (hn : n ≤ 1024) (hk : k < 1024) :
    outTargets (chainEdges n) (chainId k)
      = if k < n - 1 then [chainId (k + 1)] else [] := by
  unfold outTargets chainEdges
  rw [List.filter_map]
  have hc : (Function.comp (fun e => e.source == chainId k)
      (fun i => FlowEdge.mk (chainId i) (chainId (i + 1))))
      = fun i => chainId i == chainId k := rfl
  rw [hc, chain_filter_range (by omega) hk]
  by_cases hkn : k < n - 1
  · rw [if_pos hkn, if_pos hkn]
    rfl
  · rw [if_neg hkn, if_neg hkn]
    rfl

theorem chainId_not_mem_visitedK {m j : Nat} (hj : j < 1024) (hm : m ≤ j) :
    chainId j ∉ visitedK m := by
  intro hmem
  unfold visitedK at hmem
  obtain ⟨i, hi, hieq⟩ := List.mem_map.mp hmem
  have hi2 : i < m := List.mem_range.mp (List.mem_reverse.mp hi)
  have := chainId_inj (by omega) hj hieq
  omega

/-- Executing an `upsert_option` action whose key is a fresh, brace-free,
whitespace-free, non-empty string appends exactly one option row. -/
theorem executeAction_upsert_fresh (env : RefEnv) (db : DbState) (nodeId s : String)
    (hws : ∀ c ∈ s.data, ¬c.isWhitespace) (hbr : '\x7b' ∉ s.data) (hne : s ≠ "")
    (hfresh : db.options.find? (fun r => r.key == s) = none) :
    executeAction env db
        ⟨nodeId, "action", "",
         [("operation", .str "upsert_option"), ("key", .str s), ("value", .int 1)]⟩ [] [] []
      = .ok ({ db with options := db.options ++ [⟨s, .int 1⟩] }, [],
          ⟨nodeId, nodeId, "upsert_option", "ok",
           "Created option \x27" ++ s ++ "\x27", none⟩) := by
  have hrender : renderDict env [] [] []
      [("operation", .str "upsert_option"), ("key", .str s), ("value", .int 1)]
      = [("operation", .str "upsert_option"), ("key", .str s), ("value", .int 1)] := by
    simp only [renderDict, renderValPairs, renderVal]
    rw [renderString_no_brace env [] [] [] (s := "upsert_option") (by decide),
        renderString_no_brace env [] [] [] hbr]
  have hkey : pyStrip (Val.pyStr (pyOr ((dictGet
      [("operation", Val.str "upsert_option"), ("key", Val.str s), ("value", Val.int 1)]
      "key").getD (.str "")) (.str ""))) = s := by
    have hget : dictGet [("operation", Val.str "upsert_option"), ("key", Val.str s),
        ("value", Val.int 1)] "key" = some (.str s) := rfl
    rw [hget]
    have htr : (Val.str s).truthy = true := by
      simp only [Val.truthy, bne_iff_ne, ne_eq]
      exact hne
    simp only [Option.getD_some, pyOr, htr, if_true, Val.pyStr]
    exact pyStrip_eq_self hws
  unfold executeAction
  dsimp only
  rw [hrender]
  have hop : pyLower (pyStrip (cfgStr
      [("operation", Val.str "upsert_option"), ("key", Val.str s), ("value", Val.int 1)]
      "operation" "noop")) = "upsert_option" := rfl
  rw [hop]
  rw [if_neg (by decide), if_neg (by decide), if_pos rfl]
  show (if pyStrip (cfgStr _ "key" "") = "" then _ else _) = _
  rw [show cfgStr [("operation", Val.str "upsert_option"), ("key", Val.str s),
    ("value", Val.int 1)] "key" "" = Val.pyStr (pyOr ((dictGet [("operation",
    Val.str "upsert_option"), ("key", Val.str s), ("value", Val.int 1)]
    "key").getD (.str "")) (.str "")) from rfl]
  rw [hkey, if_neg hne, hfresh]
  rfl

theorem visitedK_succ (k : Nat) : visitedK (k + 1) = chainId k :: visitedK k := by
  unfold visitedK
  rw [List.range_succ, List.reverse_append]
  rfl

theorem range'_one_concat {k : Nat} (hk : 1 ≤ k) :
    List.range' 1 k = List.range' 1 (k - 1) ++ [k] := by
  obtain ⟨m, rfl⟩ : ∃ m, k = m + 1 := ⟨k - 1, by omega⟩
  rw [List.range'_concat]
  simp only [Nat.add_sub_cancel]
  have hm : 1 + 1 * m = m + 1 := by omega
  rw [hm]

theorem optsK_succ {k : Nat} (hk : 1 ≤ k) :
    optsK (k + 1) = optsK k ++ [⟨chainId k, .int 1⟩] := by
  unfold optsK
  rw [show k + 1 - 1 = k from rfl, range'_one_concat hk, List.map_append]
  rfl

theorem stepsK_succ {k : Nat} (hk : 1 ≤ k) :
    stepsK (k + 1) = stepsK k ++ [chainStep k] := by
  unfold stepsK
  rw [show k + 1 - 1 = k from rfl, range'_one_concat hk, List.map_append]
  rfl

theorem dbK_succ {k : Nat} (hk : 1 ≤ k) :
    dbK (k + 1) = { dbK k with options := optsK k ++ [⟨chainId k, .int 1⟩] } := by
  unfold dbK
  rw [optsK_succ hk]

theorem chain_executeAction (env : RefEnv) {k : Nat} (hk1 : 1 ≤ k) (hk : k < 1024) :
    executeAction env (dbK k) (chainNode k) [] [] []
      = .ok (dbK (k + 1), [], chainStep k) := by
  have hfresh : (dbK k).options.find? (fun r => r.key == chainId k) = none := by
    rw [List.find?_eq_none]
    intro r hr
    obtain ⟨i, hi, rfl⟩ := List.mem_map.mp hr
    have hib := List.mem_range'_1.mp hi
    simp only [beq_iff_eq]
    intro hc
    have := chainId_inj (by omega) hk hc
    omega
  unfold chainNode
  rw [if_neg (by omega)]
  rw [executeAction_upsert_fresh env (dbK k) (chainId k) (chainId k)
    (fun c hc => (chainId_chars hk c hc).1)
    (fun hmem => (chainId_chars hk '\x7b' hmem).2 rfl)
    (chainId_ne_empty k) hfresh]
  rw [dbK_succ hk1]
  rfl

/-- The chain invariant: entering the loop about to visit node `k`, with the
state produced by nodes `0 … k-1`, yields the canonical outcome of the whole
chain run — full success for `n ≤ 1000`, the too-deep failure with exactly
1001 nodes visited (1000 actions staged) otherwise. -/
theorem chain_loop (env : RefEnv) {n : Nat} (hn : n ≤ 1024) :
    ∀ (j : Nat), ∀ {k fuel : Nat}, j = n - k → k < n → k ≤ 1000 →
      bfsMeasure (chainEdges n) [chainId k] k < fuel →
      bfsLoopAux (chainNodes n) (chainEdges n) env [] [] fuel
          (dbK k) (stepsK k) [] [chainId k] (visitedK k) k
        = (if n ≤ 1000 then (dbK n, .ok (stepsK n, []))
           else (dbK 1001,
             .error (.badRequest "Flow execution stopped: graph too deep or cyclic"))) := by
  intro j
  induction j with
  | zero => intro k fuel hj hk _ _; omega
  | succ j ih =>
    intro k fuel hj hk hk1000 hfuel
    have hk1024 : k < 1024 := by omega
    match fuel, hfuel with
    | fuel + 1, hfuel =>
      have htail : (if 1000 < k + 1 then
            (dbK (k + 1),
             (.error (.badRequest "Flow execution stopped: graph too deep or cyclic")
               : Except FlowErr (List Step × List (String × Val))))
          else bfsLoopAux (chainNodes n) (chainEdges n) env [] [] fuel
            (dbK (k + 1)) (stepsK (k + 1)) []
            ([] ++ List.filter (fun t => !((chainId k :: visitedK k).contains t))
              (outTargets (chainEdges n) (chainId k))) (chainId k :: visitedK k) (k + 1))
          = (if n ≤ 1000 then (dbK n, .ok (stepsK n, []))
             else (dbK 1001,
               .error (.badRequest "Flow execution stopped: graph too deep or cyclic"))) := by
        by_cases hg : 1000 < k + 1
        · rw [if_pos hg]
          have hkeq : k = 1000 := by omega
          subst hkeq
          rw [if_neg (show ¬n ≤ 1000 by omega)]
        · rw [if_neg hg]
          rw [chain_outTargets hn hk1024]
          rw [show chainId k :: visitedK k = visitedK (k + 1) from (visitedK_succ k).symm]
          by_cases hlast : k < n - 1
          · rw [if_pos hlast]
            have hfil : List.filter (fun t => !((visitedK (k + 1)).contains t))
                [chainId (k + 1)] = [chainId (k + 1)] := by
              simp only [List.filter_cons, List.filter_nil]
              rw [if_pos (show (!((visitedK (k + 1)).contains (chainId (k + 1)))) = true by
                have hnm := chainId_not_mem_visitedK (show k + 1 < 1024 by omega)
                  (le_refl (k + 1))
                simpa using hnm)]
            rw [hfil]
            exact ih (by omega) (by omega) (by omega) (by
              simp only [bfsMeasure, List.length_cons, List.length_nil] at hfuel ⊢
              have hgg : 1001 - k = (1000 - k) + 1 := by omega
              have hgg2 : 1001 - (k + 1) = 1000 - k := by omega
              rw [hgg, Nat.succ_mul] at hfuel
              rw [hgg2]
              omega)
          · rw [if_neg hlast]
            have hkn : k + 1 = n := by omega
            have hpos : 1 ≤ fuel := by
              simp only [bfsMeasure, List.length_cons, List.length_nil] at hfuel
              have h1 : 1 ≤ 1001 - k := by omega
              have h2 : 1 * ((chainEdges n).length + 2)
                  ≤ (1001 - k) * ((chainEdges n).length + 2) :=
                Nat.mul_le_mul_right _ h1
              omega
            match fuel, hpos with
            | fuel + 1, _ =>
              rw [bfsLoopAux.eq_def]
              dsimp only [List.filter_nil, List.nil_append]
              rw [hkn, if_pos (show n ≤ 1000 by omega)]
      rw [bfsLoopAux.eq_def]
      dsimp only
      have hnv : ¬((visitedK k).contains (chainId k) = true) := by
        intro hc
        exact chainId_not_mem_visitedK hk1024 (le_refl k) (by simpa using hc)
      rw [if_neg hnv, chain_nodeLookup hn hk]
      dsimp only
      by_cases hk0 : k = 0
      · subst hk0
        rw [if_neg (show ¬(((chainNode 0).kind == "action") = true) by decide)]
        dsimp only
        exact htail
      · have hkind : ((chainNode k).kind == "action") = true := by
          unfold chainNode
          rw [if_neg hk0]
          rfl
        rw [if_pos hkind, chain_executeAction env (by omega) hk1024]
        simp only [Except.map]
        rw [← stepsK_succ (show 1 ≤ k by omega)]
        exact htail

/-- Canonical outcome of running a whole chain flow. -/
theorem chain_executeDefinition (env : RefEnv) {n : Nat} (hn1 : 1 ≤ n) (hn : n ≤ 1024) :
    executeDefinition env (chainDef n) "manual" [] [] {}
      = (if n ≤ 1000 then (dbK n, .ok (stepsK n, []))
         else (dbK 1001,
           .error (.badRequest "Flow execution stopped: graph too deep or cyclic"))) := by
  unfold executeDefinition chainDef
  dsimp only
  rw [chain_triggers hn1, if_neg (by simp)]
  unfold bfsLoop
  refine chain_loop env hn (n - 0) rfl (by omega) (by omega) ?_
  omega

/-- C8 counterexample: on the 1001-node chain the run does fail with
"graph too deep or cyclic", but only after visiting all 1001 nodes — all
1000 actions have executed, the 1000th action's option (keyed by the id of
node 1000, the 1001st visited node) included. The claim's "visits at most
1000 nodes" is false. -/
theorem claim_C8_counterexample :
    (executeDefinition ⟨"", 0, "", ""⟩ (chainDef 1001) "manual" [] [] {}).2
      = .error (.badRequest "Flow execution stopped: graph too deep or cyclic") ∧
    (executeDefinition ⟨"", 0, "", ""⟩ (chainDef 1001) "manual" [] [] {}).1.options.length
      = 1000 ∧
    ((executeDefinition ⟨"", 0, "", ""⟩ (chainDef 1001) "manual" [] [] {}).1.options.map
        (fun r => r.key)).contains (chainId 1000) = true := by
  have h := chain_executeDefinition ⟨"", 0, "", ""⟩ (show 1 ≤ 1001 by omega) (by omega)
  rw [if_neg (by omega)] at h
  refine ⟨by rw [h], ?_, ?_⟩
  · rw [h]
    simp [dbK, optsK]
  · rw [h]
    have hm : chainId 1000 ∈ ((dbK 1001).options.map (fun r => r.key)) := by
      simp only [dbK, optsK, List.map_map]
      refine List.mem_map.mpr ⟨1000, ?_, rfl⟩
      exact List.mem_range'_1.mpr ⟨by omega, by omega⟩
    simpa using hm

/-- On success the step log never exceeds 1001 entries (the loop increments
its guard on every visit and stops beyond 1000). -/
theorem bfsLoopAux_steps_le {nodes : List FlowNode} {edges : List FlowEdge} {env : RefEnv}
    {inp ctx : List (String × Val)} :
    ∀ {fuel : Nat} {db : DbState} {steps : List Step} {out : List (String × Val)}
      {queue visited : List String} {guard : Nat} {db2 : DbState}
      {steps2 : List Step} {out2 : List (String × Val)},
      bfsLoopAux nodes edges env inp ctx fuel db steps out queue visited guard
          = (db2, .ok (steps2, out2)) →
      steps2.length ≤ steps.length + (1001 - guard) := by
  intro fuel
  induction fuel with
  | zero =>
    intro db steps out queue visited guard db2 steps2 out2 h
    simp only [bfsLoopAux, Prod.mk.injEq] at h
    exact absurd h.2 (by simp)
  | succ fuel ih =>
    intro db steps out queue visited guard db2 steps2 out2 h
    rw [bfsLoopAux.eq_def] at h
    match queue, h with
    | [], h =>
      simp only [Prod.mk.injEq, Except.ok.injEq] at h
      obtain ⟨-, hs, -⟩ := h
      subst hs
      omega
    | nodeId :: rest, h =>
      dsimp only at h
      by_cases hvv : visited.contains nodeId
      · rw [if_pos hvv] at h
        exact ih h
      · rw [if_neg hvv] at h
        cases hn : nodeLookup nodes nodeId with
        | none =>
          rw [hn] at h
          dsimp only at h
          exact ih h
        | some node =>
          rw [hn] at h
          dsimp only at h
          cases hex : (if node.kind == "action"
              then (executeAction env db node inp ctx out).map (fun r => (r.1, r.2.1, some r.2.2))
              else .ok (db, out, none)) with
          | error e =>
            rw [hex] at h
            simp only [Prod.mk.injEq] at h
            exact absurd h.2 (by simp)
          | ok res =>
            obtain ⟨dbm, outm, stepOpt⟩ := res
            rw [hex] at h
            dsimp only at h
            by_cases hg : 1000 < guard + 1
            · rw [if_pos hg] at h
              simp only [Prod.mk.injEq] at h
              exact absurd h.2 (by simp)
            · rw [if_neg hg] at h
              have hrec := ih h
              cases stepOpt with
              | none =>
                dsimp only at hrec
                omega
              | some st =>
                simp only [List.length_append, List.length_cons, List.length_nil] at hrec
                omega

/-- C8 (amended): execution always terminates, but the visit cap is 1001,
not 1000: on success at most 1001 steps are returned; a chain of up to 1000
nodes runs to completion; any chain of 1001 or more nodes fails with
"Flow execution stopped: graph too deep or cyclic" after visiting 1001
nodes and staging all 1000 action effects. -/
theorem claim_C8 :
    (∀ (env : RefEnv) (defn : FlowDefinition) (event : String)
        (inp ctx : List (String × Val)) (db db2 : DbState)
        (steps : List Step) (out : List (String × Val)),
        executeDefinition env defn event inp ctx db = (db2, .ok (steps, out)) →
        steps.length ≤ 1001) ∧
    (∀ n, 1 ≤ n → n ≤ 1000 →
        executeDefinition ⟨"", 0, "", ""⟩ (chainDef n) "manual" [] [] {}
          = (dbK n, .ok (stepsK n, [])) ∧ (stepsK n).length = n - 1) ∧
    (∀ n, 1001 ≤ n → n ≤ 1024 →
        executeDefinition ⟨"", 0, "", ""⟩ (chainDef n) "manual" [] [] {}
          = (dbK 1001,
             .error (.badRequest "Flow execution stopped: graph too deep or cyclic")) ∧
        (dbK 1001).options.length = 1000) := by
  refine ⟨?_, ?_, ?_⟩
  · intro env defn event inp ctx db db2 steps out h
    unfold executeDefinition at h
    dsimp only at h
    by_cases ht : matchedTriggerIds defn.nodes event = []
    · rw [if_pos ht] at h
      simp only [Prod.mk.injEq] at h
      exact absurd h.2 (by simp)
    · rw [if_neg ht] at h
      have := bfsLoopAux_steps_le h
      simpa using this
  · intro n hn1 hn
    have h := chain_executeDefinition ⟨"", 0, "", ""⟩ hn1 (by omega)
    rw [if_pos hn] at h
    refine ⟨h, ?_⟩
    simp [stepsK]
  · intro n hn1 hn
    have h := chain_executeDefinition ⟨"", 0, "", ""⟩ (by omega) hn
    rw [if_neg (by omega)] at h
    refine ⟨h, ?_⟩
    simp [dbK, optsK]

/-- Witness for C8: the amended behavior at concrete sizes — a 3-node chain
succeeds with 2 steps, a 1001-node chain fails with 1000 staged options,
and the success step bound applies to a concrete run. -/
theorem claim_C8_witness :
    (executeDefinition ⟨"", 0, "", ""⟩ (chainDef 3) "manual" [] [] {}
        = (dbK 3, .ok (stepsK 3, [])) ∧ (stepsK 3).length = 2) ∧
    (executeDefinition ⟨"", 0, "", ""⟩ (chainDef 1001) "manual" [] [] {}
        = (dbK 1001,
           .error (.badRequest "Flow execution stopped: graph too deep or cyclic")) ∧
      (dbK 1001).options.length = 1000) ∧
    (stepsK 1).length ≤ 1001 :=
  ⟨claim_C8.2.1 3 (by decide) (by decide),
   claim_C8.2.2 1001 (by decide) (by decide),
   claim_C8.1 ⟨"", 0, "", ""⟩ (chainDef 1) "manual" [] [] {} (dbK 1) (stepsK 1) [] rfl⟩

end Flows
